import Mathlib

/-!
Verification development for the SDL render backends in this repository:
the fixed-function VRAM-overcommit backend (PSP renderer: LRU render-target
residency manager, texture swizzle layout codec) and the tile-based deferred
backend (Vita GXM renderer: command-queue translator, draw-state cache).

Machine memory is modelled at the granularity the code itself uses: the
swizzle codec moves 32-bit words, so buffers are `Nat → Nat` maps from word
index to word value; residency is modelled at the tier/flag level that the
spill/promote routines mutate.
-/

namespace VitaGXM

/-- SDL_Rect with C `int` fields. -/
structure SDLRect where
  x : Int
  y : Int
  w : Int
  h : Int
  deriving DecidableEq, Repr

/-- ClampCliprectToViewport from SDL_render_vita_gxm.c, translated line by
line: the two negative-origin clamps, then the precomputed max extents, then
the two width/height adjustments (note the code subtracts
`max_x_v - max_x_c`, which is negative in the overflowing case). -/
def ClampCliprectToViewport (clip viewport : SDLRect) : SDLRect :=
  let c1 := if clip.x < 0 then { clip with w := clip.w + clip.x, x := 0 } else clip
  let c2 := if c1.y < 0 then { c1 with h := c1.h + c1.y, y := 0 } else c1
  let max_x_c := c2.x + c2.w
  let max_y_c := c2.y + c2.h
  let max_x_v := viewport.x + viewport.w
  let max_y_v := viewport.y + viewport.h
  let c3 := if max_x_c > max_x_v then { c2 with w := c2.w - (max_x_v - max_x_c) } else c2
  let c4 := if max_y_c > max_y_v then { c3 with h := c3.h - (max_y_v - max_y_c) } else c3
  c4

/-- The SDL blend modes reachable on this backend: the five cases handled by
VITA_GXM_SetBlendMode.  Custom/premultiplied modes are rejected upstream
(VITA_GXM_SupportsBlendMode returns false and the core only accepts the
built-in modes the backend lists). -/
inductive GXMBlend where
  | bNone
  | bBlend
  | bAdd
  | bMod
  | bMul
  deriving DecidableEq, Repr

/-- Identity of a patched fragment program: one per (color/texture, blend)
pair from blendFragmentPrograms, plus the dedicated clear program. -/
inductive FragProg where
  | colorFP (b : GXMBlend)
  | textureFP (b : GXMBlend)
  | clearFP
  deriving DecidableEq, Repr

/-- Identity of a vertex program. -/
inductive VertProg where
  | colorVP
  | textureVP
  | clearVP
  deriving DecidableEq, Repr

/-- Texture references (non-NULL SDL_Texture pointers). -/
abbrev TexRef := Nat

/-- SDL_ScaleMode as used by SetDrawState (invalid = cache-empty marker set
at texture creation). -/
inductive ScaleMode where
  | nearest
  | pixelart
  | linear
  | invalid
  deriving DecidableEq, Repr

/-- SDL_TextureAddressMode as used by SetDrawState. -/
inductive AddrMode where
  | clampAddr
  | wrapAddr
  | invalid
  deriving DecidableEq, Repr

/-- Per-texture mutable sampling cache (vita_texture->scale_mode,
address_mode_u, address_mode_v). -/
structure TexCache where
  scale_mode : ScaleMode
  address_mode_u : AddrMode
  address_mode_v : AddrMode
  deriving DecidableEq, Repr

/-- Native calls issued by the translator, in program order.  Each
constructor stands for one library call site in SDL_render_vita_gxm.c. -/
inductive Ev where
  | setViewportEv (r : SDLRect)
  | unsetClipRectangle
  | setClipRectangle (xmin ymin xmax ymax : Int)
  | setVertexProgram (p : VertProg)
  | setFragmentProgram (p : FragProg)
  | setUniformWvp
  | setUniformClearColor
  | setTextureFilters (t : TexRef)
  | setTextureAddrMode (t : TexRef)
  | setFragmentTexture (t : TexRef)
  | setVertexStream
  | gxmDraw (prim : Nat) (count : Nat)
  | setFrontPolygonMode (m : Nat)
  | gxmFinish
  | endScene
  deriving DecidableEq, Repr

/-- SCE_GXM_PRIMITIVE_* codes used by the run loop. -/
def PRIM_TRIANGLES : Nat := 0
def PRIM_LINES : Nat := 1
def PRIM_POINTS : Nat := 2

/-- SCE_GXM_POLYGON_MODE_* codes used by the run loop. -/
def POLY_TRIANGLE_FILL : Nat := 0
def POLY_LINE : Nat := 1
def POLY_POINT : Nat := 2

/-- gxm_drawstate_cache (the fields read or written by the modelled
operations; the queued draw color and last_command fields are omitted since
no modelled call reads them). -/
structure Drawstate where
  viewport : SDLRect
  viewport_dirty : Bool
  viewport_is_set : Bool
  texture : Option TexRef
  fragment_program : Option FragProg
  vertex_program : Option VertProg
  cliprect_enabled_dirty : Bool
  cliprect_enabled : Bool
  cliprect_dirty : Bool
  cliprect : SDLRect
  drawablew : Int
  drawableh : Int
  deriving DecidableEq, Repr

/-- VITA_GXM_RenderData (the translator-relevant fields), plus the
per-texture sampling caches indexed by texture reference. -/
structure GXMData where
  currentBlendMode : GXMBlend
  colorFragmentProgram : FragProg
  textureFragmentProgram : FragProg
  drawstate : Drawstate
  texCache : TexRef → TexCache

/-- cmd->data.draw for a queued draw command. -/
structure DrawData where
  texture : Option TexRef
  blend : GXMBlend
  texture_scale_mode : ScaleMode
  texture_address_mode_u : AddrMode
  texture_address_mode_v : AddrMode
  count : Nat
  deriving DecidableEq, Repr

/-- VITA_GXM_SetBlendMode: pure cache update selecting the blend-specific
fragment programs; issues no native call. -/
def VITA_GXM_SetBlendMode (data : GXMData) (blendMode : GXMBlend) : GXMData :=
  if blendMode ≠ data.currentBlendMode then
    let fps : FragProg × FragProg :=
      match blendMode with
      | .bNone => (.colorFP .bNone, .textureFP .bNone)
      | .bBlend => (.colorFP .bBlend, .textureFP .bBlend)
      | .bAdd => (.colorFP .bAdd, .textureFP .bAdd)
      | .bMod => (.colorFP .bMod, .textureFP .bMod)
      | .bMul => (.colorFP .bMul, .textureFP .bMul)
    { data with
      colorFragmentProgram := fps.1
      textureFragmentProgram := fps.2
      currentBlendMode := blendMode }
  else
    data

/-- Viewport / clip-rect section of SetDrawState (its first three blocks):
lazy viewport apply with matrix recomputation, deferred clip disable, and
clip apply clamped to the viewport when one is set.  Returns the mutated
data, the native calls, and matrix_updated. -/
def applyViewportClip (data : GXMData) : GXMData × List Ev × Bool :=
  let step1 : Drawstate × List Ev × Bool :=
    if data.drawstate.viewport_dirty then
      ( { data.drawstate with viewport_dirty := false },
        [Ev.setViewportEv data.drawstate.viewport],
        data.drawstate.viewport.w ≠ 0 && data.drawstate.viewport.h ≠ 0 )
    else (data.drawstate, [], false)
  let ds1 := step1.1
  let ev1 := step1.2.1
  let matrix_updated := step1.2.2
  let step2 : Drawstate × List Ev :=
    if ds1.cliprect_enabled_dirty then
      ( { ds1 with cliprect_enabled_dirty := false },
        if ds1.cliprect_enabled then [] else [Ev.unsetClipRectangle] )
    else (ds1, [])
  let ds2 := step2.1
  let ev2 := step2.2
  let step3 : Drawstate × List Ev :=
    if (ds2.cliprect_enabled || ds2.viewport_is_set) && ds2.cliprect_dirty then
      let rect :=
        if ds2.viewport_is_set then
          ClampCliprectToViewport ds2.cliprect ds2.viewport
        else ds2.cliprect
      ( { ds2 with cliprect_dirty := false },
        [Ev.setClipRectangle rect.x rect.y (rect.x + rect.w) (rect.y + rect.h)] )
    else (ds2, [])
  ({ data with drawstate := step3.1 }, ev1 ++ ev2 ++ step3.2, matrix_updated)

/-- Program / texture / vertex-stream section of SetDrawState: blend-mode
select, program compare-and-bind, wvp uniform refresh, per-texture sampling
state, fragment texture bind, vertex stream set. -/
def applyProgramsAndTexture (data0 : GXMData) (cmd : DrawData)
    (matrix_updated : Bool) : GXMData × List Ev :=
  let data := VITA_GXM_SetBlendMode data0 cmd.blend
  let vertex_program : VertProg :=
    match cmd.texture with
    | some _ => .textureVP
    | none => .colorVP
  let fragment_program : FragProg :=
    match cmd.texture with
    | some _ => data.textureFragmentProgram
    | none => data.colorFragmentProgram
  let stepV : Drawstate × List Ev × Bool :=
    if data.drawstate.vertex_program ≠ some vertex_program then
      ( { data.drawstate with vertex_program := some vertex_program },
        [Ev.setVertexProgram vertex_program], true )
    else (data.drawstate, [], false)
  let ds1 := stepV.1
  let stepF : Drawstate × List Ev × Bool :=
    if ds1.fragment_program ≠ some fragment_program then
      ( { ds1 with fragment_program := some fragment_program },
        [Ev.setFragmentProgram fragment_program], true )
    else (ds1, [], false)
  let ds2 := stepF.1
  let evWvp :=
    if stepV.2.2 || stepF.2.2 || matrix_updated then [Ev.setUniformWvp] else []
  let stepT : (TexRef → TexCache) × List Ev :=
    match cmd.texture with
    | some t =>
      let entry := data.texCache t
      let stepScale : TexCache × List Ev :=
        if cmd.texture_scale_mode ≠ entry.scale_mode then
          ( { entry with scale_mode := cmd.texture_scale_mode },
            [Ev.setTextureFilters t] )
        else (entry, [])
      let stepAddr : TexCache × List Ev :=
        if cmd.texture_address_mode_u ≠ stepScale.1.address_mode_u ||
           cmd.texture_address_mode_v ≠ stepScale.1.address_mode_v then
          ( { stepScale.1 with
              address_mode_u := cmd.texture_address_mode_u
              address_mode_v := cmd.texture_address_mode_v },
            [Ev.setTextureAddrMode t] )
        else (stepScale.1, [])
      ((fun i => if i = t then stepAddr.1 else data.texCache i),
        stepScale.2 ++ stepAddr.2)
    | none => (data.texCache, [])
  let stepB : Drawstate × List Ev :=
    if cmd.texture ≠ ds2.texture then
      ( { ds2 with texture := cmd.texture },
        match cmd.texture with
        | some t => [Ev.setFragmentTexture t]
        | none => [] )
    else (ds2, [])
  ( { data with drawstate := stepB.1, texCache := stepT.1 },
    stepV.2.1 ++ stepF.2.1 ++ evWvp ++ stepT.2 ++ stepB.2 ++ [Ev.setVertexStream] )

/-- SetDrawState from SDL_render_vita_gxm.c: the viewport/clip section
followed by the program/texture section (the C function always returns
true). -/
def SetDrawState (data : GXMData) (cmd : DrawData) : GXMData × List Ev :=
  let r1 := applyViewportClip data
  let r2 := applyProgramsAndTexture r1.1 cmd r1.2.2
  (r2.1, r1.2.1 ++ r2.2)

/-- VITA_GXM_RenderClear: unsets the clip rectangle, binds the clear
programs (updating the drawstate cache), uploads the clear color, draws the
clear triangle, and marks the clip rect dirty. -/
def VITA_GXM_RenderClear (data : GXMData) : GXMData × List Ev :=
  ( { data with
      drawstate := { data.drawstate with
        fragment_program := some .clearFP
        vertex_program := some .clearVP
        cliprect_dirty := true } },
    [Ev.unsetClipRectangle, Ev.setVertexProgram .clearVP,
     Ev.setFragmentProgram .clearFP, Ev.setUniformClearColor,
     Ev.setVertexStream, Ev.gxmDraw PRIM_TRIANGLES 3] )

/-- The queued command stream walked by VITA_GXM_RunCommandQueue.  The
unused FillRects/Copy/CopyEx cases and NoOp carry no data; state-only
commands carry their payloads. -/
inductive VitaCmd where
  | setViewport (r : SDLRect)
  | setClipRect (enabled : Bool) (r : SDLRect)
  | setDrawColor
  | clear
  | fillRects
  | copy
  | copyEx
  | drawPoints (d : DrawData)
  | drawLines (d : DrawData)
  | geometry (d : DrawData)
  | noop
  deriving DecidableEq, Repr

/-- Command-type tag used by the batching comparison
(nextcmd->command == thiscmdtype). -/
inductive DrawTag where
  | points
  | lines
  | geom
  deriving DecidableEq, Repr

/-- The draw payload of a command, when it is a draw-type command. -/
def drawDataOf : VitaCmd → Option (DrawTag × DrawData)
  | .drawPoints d => some (.points, d)
  | .drawLines d => some (.lines, d)
  | .geometry d => some (.geom, d)
  | _ => none

/-- Whether the next command can be merged into the current batch: same
command type, same texture, same blend mode. -/
def canMerge (tag : DrawTag) (d : DrawData) (c : VitaCmd) : Bool :=
  match drawDataOf c with
  | some (tag', d') => tag' = tag && d'.texture = d.texture && d'.blend = d.blend
  | none => false

/-- The batch-merge scan of VITA_GXM_RunCommandQueue: walk forward while
commands share {type, texture, blend}, accumulating their vertex counts;
return the accumulated count and the unconsumed remainder of the queue. -/
def mergeRun (tag : DrawTag) (d : DrawData) : List VitaCmd → Nat × List VitaCmd
  | [] => (0, [])
  | c :: rest =>
    if canMerge tag d c then
      match drawDataOf c with
      | some (_, d') =>
        let (n, r) := mergeRun tag d rest
        (d'.count + n, r)
      | none => (0, c :: rest)
    else (0, c :: rest)

/-- Primitive topology selected for a batch. -/
def primOf : DrawTag → Nat
  | .points => PRIM_POINTS
  | .lines => PRIM_LINES
  | .geom => PRIM_TRIANGLES

/-- Native calls around the batched sceGxmDraw: polygon-mode switch for
points/lines, the draw itself, and the restore to fill mode. -/
def drawCalls (tag : DrawTag) (count : Nat) : List Ev :=
  match tag with
  | .points => [Ev.setFrontPolygonMode POLY_POINT, Ev.gxmDraw PRIM_POINTS count,
                Ev.setFrontPolygonMode POLY_TRIANGLE_FILL]
  | .lines => [Ev.setFrontPolygonMode POLY_LINE, Ev.gxmDraw PRIM_LINES count,
               Ev.setFrontPolygonMode POLY_TRIANGLE_FILL]
  | .geom => [Ev.gxmDraw PRIM_TRIANGLES count]

/-- SDL_RENDERCMD_SETVIEWPORT case of the run loop. -/
def runSetViewport (data : GXMData) (r : SDLRect) : GXMData :=
  if r ≠ data.drawstate.viewport then
    let is_set := r.x ≠ 0 ∨ r.y ≠ 0 ∨ r.w ≠ data.drawstate.drawablew ∨
      r.h ≠ data.drawstate.drawableh
    let ds := { data.drawstate with
      viewport := r
      viewport_dirty := true
      cliprect_dirty := true
      viewport_is_set := decide is_set }
    let ds :=
      if !ds.cliprect_enabled then
        if ds.viewport_is_set then
          { ds with cliprect := { r with x := 0, y := 0 } }
        else
          { ds with cliprect_enabled_dirty := true }
      else ds
    { data with drawstate := ds }
  else data

/-- SDL_RENDERCMD_SETCLIPRECT case of the run loop. -/
def runSetClipRect (data : GXMData) (enabled : Bool) (r : SDLRect) : GXMData :=
  let ds := data.drawstate
  let ds :=
    if ds.cliprect_enabled ≠ enabled then
      let ds := { ds with cliprect_enabled := enabled, cliprect_enabled_dirty := true }
      if !enabled && ds.viewport_is_set then
        { ds with cliprect := { ds.viewport with x := 0, y := 0 } }
      else ds
    else ds
  let ds :=
    if ds.cliprect ≠ r then { ds with cliprect := r, cliprect_dirty := true }
    else ds
  { data with drawstate := ds }

/-- The command-walking loop of VITA_GXM_RunCommandQueue (after
StartDrawing and the drawable-size bookkeeping), emitting the native call
trace; ends with sceGxmEndScene. -/
def runLoop (data : GXMData) : List VitaCmd → GXMData × List Ev
  | [] => (data, [Ev.endScene])
  | c :: rest =>
    match drawDataOf c with
    | some (tag, d) =>
      let count := d.count + (mergeRun tag d rest).1
      let r1 := SetDrawState data d
      let r2 := runLoop r1.1 (mergeRun tag d rest).2
      (r2.1, r1.2 ++ drawCalls tag count ++ r2.2)
    | none =>
      match c with
      | .setViewport r => runLoop (runSetViewport data r) rest
      | .setClipRect e r => runLoop (runSetClipRect data e r) rest
      | .clear =>
        let r1 := VITA_GXM_RenderClear data
        let r2 := runLoop r1.1 rest
        (r2.1, r1.2 ++ r2.2)
      | _ => runLoop data rest
  termination_by l => l.length
  decreasing_by
  · have hlen : ∀ l : List VitaCmd, (mergeRun tag d l).2.length ≤ l.length := by
      intro l
      induction l with
      | nil => simp [mergeRun]
      | cons c2 rest2 ih =>
        by_cases h : canMerge tag d c2 = true
        · cases hd2 : drawDataOf c2 with
          | none => simp [mergeRun, h, hd2]
          | some p =>
            simp only [mergeRun, h, if_true, hd2]
            exact le_trans ih (Nat.le_succ _)
        · simp [mergeRun, h]
    exact Nat.lt_succ_of_le (hlen rest)
  all_goals exact Nat.lt_succ_self _

/-- StartDrawing's drawstate reset (texture, programs and viewport-dirty),
performed at the top of each RunCommandQueue invocation. -/
def startDrawingReset (data : GXMData) : GXMData :=
  { data with drawstate := { data.drawstate with
      texture := none
      vertex_program := none
      fragment_program := none
      viewport_dirty := true } }

/-- VITA_GXM_RunCommandQueue: StartDrawing reset then the command walk.
(The drawable-size comparison is modelled as part of the initial state:
a size change only sets the same dirty flags startDrawingReset and the
queued commands drive.) -/
def VITA_GXM_RunCommandQueue (data : GXMData) (cmds : List VitaCmd) :
    GXMData × List Ev :=
  runLoop (startDrawingReset data) cmds

/-- VITA_GXM_QueueDrawLines stores (count - 1) * 2 vertices: each of the
count-1 segments of the point list contributes a pair of vertices. -/
def queuedLinesCount (points : Nat) : Nat :=
  (points - 1) * 2

/-- A Vita texture as seen by VITA_GXM_LockTexture: its pitch and whether
create_gxm_texture gave it a render target (access = target). -/
structure VitaTexture where
  pitch : Nat
  hasRendertarget : Bool
  deriving DecidableEq, Repr

/-- Result of locking: pixel pointer offset, pitch, and the native calls
performed before returning. -/
structure LockResult where
  offset : Nat
  pitch : Nat
  events : List Ev
  deriving DecidableEq, Repr

/-- VITA_GXM_LockTexture: computes the rect-relative pointer and pitch, and
drains the GPU with sceGxmFinish when the texture is a render target,
before returning. -/
def VITA_GXM_LockTexture (tex : VitaTexture) (rectX rectY bpp : Nat) :
    LockResult :=
  { offset := rectY * tex.pitch + rectX * bpp
    pitch := tex.pitch
    events := if tex.hasRendertarget then [Ev.gxmFinish] else [] }

/-- Whether a native call is a sceGxmDraw. -/
def isGxmDraw : Ev → Bool
  | .gxmDraw _ _ => true
  | _ => false

/-- The sceGxmDraw calls of a trace. -/
def drawEvents (l : List Ev) : List Ev :=
  l.filter isGxmDraw

/-- Whether a native call binds a program or a texture
(sceGxmSetVertexProgram / sceGxmSetFragmentProgram /
sceGxmSetFragmentTexture). -/
def isBindCall : Ev → Bool
  | .setVertexProgram _ => true
  | .setFragmentProgram _ => true
  | .setFragmentTexture _ => true
  | _ => false

/-- The program/texture-bind calls of a trace. -/
def bindCalls (l : List Ev) : List Ev :=
  l.filter isBindCall

/-- Total queued vertex count of a command list (0 for non-draw commands). -/
def sumCounts : List VitaCmd → Nat
  | [] => 0
  | c :: r =>
    (match drawDataOf c with
      | some (_, d) => d.count
      | none => 0) + sumCounts r

/-- Build the draw command of a given type. -/
def mkDraw : DrawTag → DrawData → VitaCmd
  | .points, d => .drawPoints d
  | .lines, d => .drawLines d
  | .geom, d => .geometry d

/-- The vertex program SetDrawState selects for a draw command. -/
def vertProgFor : Option TexRef → VertProg
  | some _ => .textureVP
  | none => .colorVP

/-- The fragment program implementing a blend mode for a draw command
(texture or color pipeline). -/
def fragProgFor : Option TexRef → GXMBlend → FragProg
  | some _, b => .textureFP b
  | none, b => .colorFP b

/-- The renderer's selected fragment programs agree with its cached blend
mode — established at gxm_init and preserved by every SetBlendMode. -/
def blendCoherent (data : GXMData) : Prop :=
  data.colorFragmentProgram = .colorFP data.currentBlendMode ∧
  data.textureFragmentProgram = .textureFP data.currentBlendMode

end VitaGXM

namespace Residency

/-!
Tier/flag-level model of the PSP renderer's render-target residency manager
(the LRU spill/promote machinery around PSP_TextureData).  Textures are
identified by `TexId`; the renderer state holds each texture's metadata and
the LRU list of render targets (head = most_recent_target, last =
least_recent_target).

Two externalities are modelled explicitly:
  * `mallocOk` — whether SDL_malloc succeeds (the only failure source of
    TextureSwizzle / TextureSpillToSram);
  * `vlb` — vlargestblock(), the largest contiguous free VRAM block, an
    arbitrary function of the renderer state (the state determines which
    textures currently occupy VRAM).
vramalloc in TexturePromoteToVram / PSP_CreateTexture is modelled as
succeeding: it runs right after TextureSpillTargetsForSpace has ensured a
contiguous block of the requested size.
-/

/-- Texture identifiers (PSP_TextureData pointers). -/
abbrev TexId := Nat

/-- SDL_TextureAccess. -/
inductive Access where
  | staticAcc
  | streaming
  | target
  deriving DecidableEq, Repr

/-- PSP_TextureData (the residency-relevant fields): `inVram` models
InVram(data), i.e. which tier the backing bytes live in; `alive` models
whether the texture currently exists. -/
structure PSPTex where
  alive : Bool
  access : Access
  width : Nat
  height : Nat
  size : Nat
  pitch : Nat
  swizzled : Bool
  inVram : Bool
  deriving DecidableEq, Repr

/-- PSP_RenderData (the residency-relevant fields): the texture table, the
LRU list (head = most_recent_target), and the SDL_malloc success oracle. -/
structure RState where
  texs : TexId → PSPTex
  lru : List TexId
  mallocOk : Bool

/-- Point update of the texture table. -/
def setTex (s : RState) (v : TexId) (t : PSPTex) : RState :=
  { s with texs := fun i => if i = v then t else s.texs i }

/-- LRUTargetRemove: unlink a texture from the LRU list (no-op when it is
not linked). -/
def LRUTargetRemove (s : RState) (v : TexId) : RState :=
  { s with lru := s.lru.erase v }

/-- LRUTargetPushFront: link a texture at the most-recently-used end. -/
def LRUTargetPushFront (s : RState) (v : TexId) : RState :=
  { s with lru := v :: s.lru }

/-- LRUTargetBringFront: nothing to do when already most recent, otherwise
remove and push front. -/
def LRUTargetBringFront (s : RState) (v : TexId) : RState :=
  if s.lru.head? = some v then s
  else LRUTargetPushFront (LRUTargetRemove s v) v

/-- TextureSwizzle at the residency level (dst = NULL): no-op when already
swizzled; otherwise SDL_mallocs a system-memory buffer (failing iff malloc
fails), swizzles into it and frees the old storage, so the data leaves VRAM
and the texture becomes swizzled. -/
def TextureSwizzle (s : RState) (v : TexId) : Bool × RState :=
  let t := s.texs v
  if t.swizzled then (true, s)
  else if s.mallocOk then
    (true, setTex s v { t with swizzled := true, inVram := false })
  else (false, s)

/-- TextureSpillToSram: a swizzled VRAM texture is memcpy'd to a fresh
SDL_malloc'd buffer (vfree'ing the VRAM block); an unswizzled one is
swizzled, which reallocates it in system memory. -/
def TextureSpillToSram (s : RState) (v : TexId) : Bool × RState :=
  let t := s.texs v
  if t.swizzled then
    if s.mallocOk then (true, setTex s v { t with inVram := false })
    else (false, s)
  else
    TextureSwizzle s v

/-- TextureUnswizzle at the residency level, with a provided destination
buffer already allocated in VRAM (the TexturePromoteToVram call site): the
data moves into VRAM and the texture becomes unswizzled. -/
def TextureUnswizzleToVram (s : RState) (v : TexId) : RState :=
  let t := s.texs v
  setTex s v { t with swizzled := false, inVram := true }

/-- TexturePromoteToVram: vramalloc a block (assumed to succeed, see the
namespace comment); a swizzled texture promoted as a render target is
unswizzled into it, any other texture is memcpy'd as-is. -/
def TexturePromoteToVram (s : RState) (v : TexId) (target : Bool) : RState :=
  let t := s.texs v
  if t.swizzled && target then TextureUnswizzleToVram s v
  else setTex s v { t with inVram := true }

/-- TextureSpillLRU: spill least_recent_target to system memory and unlink
it; error when the list is empty, and no mutation at all when the spill's
copy fails. -/
def TextureSpillLRU (s : RState) : Bool × RState :=
  match s.lru.getLast? with
  | some lru =>
    match TextureSpillToSram s lru with
    | (false, s1) => (false, s1)
    | (true, s1) => (true, LRUTargetRemove s1 lru)
  | none => (false, s)

/-- TextureSpillTargetsForSpace: spill LRU targets while the largest
contiguous free VRAM block is smaller than the requested size. -/
def TextureSpillTargetsForSpace (vlb : RState → Nat) (s : RState)
    (size : Nat) : Bool × RState :=
  if vlb s < size then
    match h : TextureSpillLRU s with
    | (false, s1) => (false, s1)
    | (true, s1) => TextureSpillTargetsForSpace vlb s1 size
  else (true, s)
  termination_by s.lru.length
  decreasing_by
    unfold TextureSpillLRU at h
    split at h
    · rename_i v hv
      split at h
      · simp at h
      · rename_i s2 hsp
        have hmem : v ∈ s.lru := by
          rcases List.eq_nil_or_concat s.lru with hnil | ⟨l', b, hcat⟩
          · rw [hnil] at hv
            simp at hv
          · rw [hcat] at hv ⊢
            rw [List.concat_eq_append, List.getLast?_concat] at hv
            rw [Option.some.injEq] at hv
            simp [hv]
        have hs2 : s2.lru = s.lru := by
          unfold TextureSpillToSram TextureSwizzle at hsp
          dsimp only at hsp
          split at hsp
          all_goals split at hsp
          all_goals first | (cases hsp; rfl) | simp at hsp
        have h2 : s1 = LRUTargetRemove s2 v := by
          have := congrArg Prod.snd h
          simpa using this.symm
        have hlen := List.length_erase_add_one hmem
        rw [h2]
        simp only [LRUTargetRemove, hs2]
        omega
    · simp at h

/-- TextureBindAsTarget: a texture whose bytes are not in VRAM is brought
back (spill others for space, then promote as a target); in every
successful case the texture is moved to the most-recently-used position. -/
def TextureBindAsTarget (vlb : RState → Nat) (s : RState) (v : TexId) :
    Bool × RState :=
  if (s.texs v).inVram then (true, LRUTargetBringFront s v)
  else
    match TextureSpillTargetsForSpace vlb s (s.texs v).size with
    | (false, s1) => (false, s1)
    | (true, s1) =>
      (true, LRUTargetBringFront (TexturePromoteToVram s1 v true) v)

/-- PSP_CreateTexture (residency part): a target texture first makes VRAM
room via TextureSpillTargetsForSpace, vramallocs its store (assumed to
succeed, see namespace comment) and is pushed at the front of the LRU list;
other textures are SDL_calloc'd in system memory.  `w h size pitch` are the
values the C code computes from the requested dimensions and format. -/
def PSP_CreateTexture (vlb : RState → Nat) (s : RState) (v : TexId)
    (acc : Access) (w h size pitch : Nat) : Bool × RState :=
  if acc = .target then
    match TextureSpillTargetsForSpace vlb s size with
    | (false, s1) => (false, s1)
    | (true, s1) =>
      (true, LRUTargetPushFront
        (setTex s1 v
          { alive := true, access := acc, width := w, height := h,
            size := size, pitch := pitch, swizzled := false, inVram := true })
        v)
  else
    if s.mallocOk then
      (true, setTex s v
        { alive := true, access := acc, width := w, height := h,
          size := size, pitch := pitch, swizzled := false, inVram := false })
    else (false, s)

/-- PSP_DestroyTexture: unconditional LRUTargetRemove, then the storage and
record are freed. -/
def PSP_DestroyTexture (s : RState) (v : TexId) : RState :=
  let s1 := LRUTargetRemove s v
  setTex s1 v { s1.texs v with alive := false }

/-- TextureShouldSwizzle: not a VRAM-resident render target, not a
streaming texture, and at least 16 pixels in one dimension. -/
def TextureShouldSwizzle (t : PSPTex) : Bool :=
  !(decide (t.access = .target) && t.inVram) &&
    !(decide (t.access = .streaming)) &&
    (decide (16 ≤ t.width) || decide (16 ≤ t.height))

/-- TextureActivate (residency part): swizzle the texture when
TextureShouldSwizzle says so (the sceGuTexMode/sceGuTexImage calls do not
change the modelled state; a failed swizzle is ignored, leaving the texture
as it was). -/
def TextureActivate (s : RState) (v : TexId) : RState :=
  if TextureShouldSwizzle (s.texs v) then (TextureSwizzle s v).2 else s

/-- Native calls PSP_LockTexture could make (it makes none). -/
inductive PSPCall where
  | guSync
  deriving DecidableEq, Repr

/-- Result of PSP_LockTexture: pixel pointer offset into the texture data,
pitch, and the native calls performed before returning. -/
structure PSPLockResult where
  offset : Nat
  pitch : Nat
  events : List PSPCall
  deriving DecidableEq, Repr

/-- PSP_LockTexture: returns a pointer into the backing store at the rect
origin and the texture pitch; the function body performs no GPU
synchronization call. -/
def PSP_LockTexture (s : RState) (v : TexId) (rectX rectY bpp : Nat) :
    PSPLockResult :=
  { offset := rectY * (s.texs v).pitch + rectX * bpp
    pitch := (s.texs v).pitch
    events := [] }

/-- Spec-side description of one eviction: remove the node at the
least-recently-used end of the LRU list and move its bytes to the slow
tier (leaving them in the swizzled form TextureSpillToSram produces). -/
def evictLRU (s : RState) : RState :=
  match s.lru.getLast? with
  | some v =>
    LRUTargetRemove (setTex s v { s.texs v with swizzled := true, inVram := false }) v
  | none => s

/-- Spec-side description of k successive LRU evictions. -/
def spillK (s : RState) : Nat → RState
  | 0 => s
  | k + 1 => spillK (evictLRU s) k

/-- One step of the renderer's texture lifecycle, as invoked from the SDL
core: texture creation with a fresh id, binding a (target-access, alive)
texture as the render target, activating an alive texture for sampling,
and texture destruction.  Failed operations also step (their partial spill
work persists). -/
inductive StepR (vlb : RState → Nat) : RState → RState → Prop
  | create (s : RState) (v : TexId) (acc : Access) (w h size pitch : Nat)
      (hfresh : (s.texs v).alive = false) :
      StepR vlb s (PSP_CreateTexture vlb s v acc w h size pitch).2
  | bind (s : RState) (v : TexId)
      (halive : (s.texs v).alive = true)
      (htarget : (s.texs v).access = .target) :
      StepR vlb s (TextureBindAsTarget vlb s v).2
  | activate (s : RState) (v : TexId)
      (halive : (s.texs v).alive = true) :
      StepR vlb s (TextureActivate s v)
  | destroy (s : RState) (v : TexId) :
      StepR vlb s (PSP_DestroyTexture s v)

/-- The initial renderer state: no textures, empty LRU list. -/
def initState (m : Bool) : RState :=
  { texs := fun _ =>
      { alive := false, access := .staticAcc, width := 0, height := 0,
        size := 0, pitch := 0, swizzled := false, inVram := false }
    lru := []
    mallocOk := m }

/-- States reachable from renderer creation through lifecycle steps. -/
inductive Reachable (vlb : RState → Nat) : RState → Prop
  | init (m : Bool) : Reachable vlb (initState m)
  | step {s s' : RState} : Reachable vlb s → StepR vlb s s' → Reachable vlb s'

/-- The residency invariant: the LRU list has no duplicates, a texture is
linked in it exactly when it is an alive target-access texture whose bytes
are in VRAM, and streaming textures are never swizzled. -/
def Inv (s : RState) : Prop :=
  s.lru.Nodup ∧
  (∀ t : TexId, t ∈ s.lru ↔
    ((s.texs t).alive = true ∧ (s.texs t).access = .target ∧
      (s.texs t).inVram = true)) ∧
  (∀ t : TexId, (s.texs t).access = .streaming → (s.texs t).swizzled = false)

end Residency

namespace Codec

/-!
Word-level model of the PSP texture layout codec, TextureSwizzle and
TextureUnswizzle.  Both routines move 32-bit words (`unsigned int`), so a
buffer is a map from word index to word value; a C byte address `ba` into a
buffer corresponds to word index `ba / 4` (every address the code forms is
16-byte aligned).  Storage allocation is handled by the residency model;
here the destination buffer `dst` is the freshly allocated buffer with its
arbitrary initial contents.
-/

/-- Write one word. -/
def wr (m : Nat → Nat) (a v : Nat) : Nat → Nat :=
  fun x => if x = a then v else m x

/-- The unrolled four-word copy `*block++ = *src++;` (×4) shared by both
codec inner loops. -/
def wr4 (dst : Nat → Nat) (b : Nat) (src : Nat → Nat) (s : Nat) : Nat → Nat :=
  wr (wr (wr (wr dst b (src s)) (b + 1) (src (s + 1))) (b + 2) (src (s + 2)))
    (b + 3) (src (s + 3))

/-- Shared shape of the codec block loops: `n` times, copy 4 words from
sequential source position `s` to destination word position `b`, then skip
`skip` further destination words (`block += 28` in TextureSwizzle,
`block += dstpitch` in TextureUnswizzle, both after the four writes). -/
def copyBlocks (src : Nat → Nat) (skip : Nat) :
    Nat → Nat → (Nat → Nat) → Nat → (Nat → Nat)
  | _, _, dst, 0 => dst
  | s, b, dst, n + 1 =>
    copyBlocks src skip (s + 4) (b + 4 + skip) (wr4 dst b src s) n

/-- The row loop of TextureSwizzle.  `ba` is `blockaddress` in bytes
exactly as in the C (the destination word position of a row is `ba / 4`);
after each row body `blockaddress` grows by `rowblocksadd` at the end of an
8-row band (`(j & 0x7) == 0x7`) and by 16 in the loop update. -/
def swizzleRows (src : Nat → Nat) (rowblocks rowblocksadd : Nat) :
    Nat → Nat → Nat → (Nat → Nat) → Nat → (Nat → Nat)
  | _, _, _, dst, 0 => dst
  | s, ba, j, dst, n + 1 =>
    let dst' := copyBlocks src 28 s (ba / 4) dst rowblocks
    let ba' := ba + (if j % 8 == 7 then rowblocksadd else 0) + 16
    swizzleRows src rowblocks rowblocksadd (s + 4 * rowblocks) ba' (j + 1) dst' n

/-- The block-column loop of TextureUnswizzle: each 16-byte-wide block
copies 8 rows of 4 words with destination stride `dstpitch` words between
rows; `xdst` is the byte pointer, advanced by 16 per block, while the
source advances 32 words per block. -/
def unswizzleX (src : Nat → Nat) (dstpitch : Nat) :
    Nat → Nat → (Nat → Nat) → Nat → (Nat → Nat)
  | _, _, dst, 0 => dst
  | s, xdst, dst, n + 1 =>
    unswizzleX src dstpitch (s + 32) (xdst + 16)
      (copyBlocks src dstpitch s (xdst / 4) dst 8) n

/-- The band loop of TextureUnswizzle: `ydst` is the byte pointer advanced
by `dstrow` bytes per 8-row band, the source advancing
`32 * widthblocks` words per band. -/
def unswizzleY (src : Nat → Nat) (widthblocks dstpitch dstrow : Nat) :
    Nat → Nat → (Nat → Nat) → Nat → (Nat → Nat)
  | _, _, dst, 0 => dst
  | s, ydst, dst, n + 1 =>
    unswizzleY src widthblocks dstpitch dstrow (s + 32 * widthblocks)
      (ydst + dstrow) (unswizzleX src dstpitch s ydst dst widthblocks) n

/-- PSP_TextureData as the codec sees it: word contents plus the geometry
fields the codec reads. -/
structure PSPTextureData where
  dataW : Nat → Nat
  size : Nat
  textureWidth : Nat
  bits : Nat
  swizzled : Bool

/-- bytewidth = textureWidth * (bits >> 3). -/
def bytewidthOf (t : PSPTextureData) : Nat :=
  t.textureWidth * (t.bits / 8)

/-- TextureSwizzle: no-op on an already swizzled texture, otherwise the
row/block scatter into the fresh buffer `dst` (the SDL_malloc'd or caller
provided buffer with arbitrary prior contents). -/
def TextureSwizzle (t : PSPTextureData) (dst : Nat → Nat) : PSPTextureData :=
  if t.swizzled then t
  else
    let bytewidth := bytewidthOf t
    let height := t.size / bytewidth
    let rowblocks := bytewidth / 16
    let rowblocksadd := (rowblocks - 1) * 128
    { t with
      dataW := swizzleRows t.dataW rowblocks rowblocksadd 0 0 0 dst height
      swizzled := true }

/-- TextureUnswizzle: no-op on an unswizzled texture, otherwise the
band/block gather into the fresh buffer `dst`. -/
def TextureUnswizzle (t : PSPTextureData) (dst : Nat → Nat) : PSPTextureData :=
  if !t.swizzled then t
  else
    let bytewidth := bytewidthOf t
    let height := t.size / bytewidth
    let widthblocks := bytewidth / 16
    let heightblocks := height / 8
    let dstpitch := (bytewidth - 16) / 4
    let dstrow := bytewidth * 8
    { t with
      dataW := unswizzleY t.dataW widthblocks dstpitch dstrow 0 0 dst heightblocks
      swizzled := false }

/-- The source row a swizzled word index `a` came from:
`a = 128·rowblocks·band + 128·i + 16·(row % 8) + byte` in bytes identifies
row `8·band + row % 8`.  (Word-index form.) -/
def dJ (rb a : Nat) : Nat :=
  8 * (a / 32 / rb) + a % 32 / 4

/-- The linear word index that the swizzle writes at swizzled word index
`a` (for a buffer of `rb` row blocks). -/
def srcIdxOfSw (rb a : Nat) : Nat :=
  4 * (dJ rb a * rb + a / 32 % rb) + a % 4

/-- The swizzled word index that the unswizzle reads when writing linear
word index `a` (for a buffer of `wb` width blocks). -/
def swIdxOf (wb a : Nat) : Nat :=
  32 * (wb * (a / (4 * wb) / 8) + a % (4 * wb) / 4) + 4 * (a / (4 * wb) % 8) + a % 4

/-- Byte blockaddress at the start of row `j` of the swizzle row loop. -/
def rowBase (rb j : Nat) : Nat :=
  16 * j + 128 * ((rb - 1) * (j / 8))

/-- The swizzled word position written for linear row `j`, row block `k`,
word `w` (for a buffer of `rb` row blocks): block `rb * (j / 8) + k` of 32
words, plus `4 * (j % 8) + w` inside the block. -/
def posW (rb j k w : Nat) : Nat :=
  32 * (rb * (j / 8) + k) + 4 * (j % 8) + w

end Codec

namespace VitaGXM

/-- C8 — the claim that the applied clip rectangle always lies within the
viewport is right about the intent (the function is named
ClampCliprectToViewport and the spec says the clip rect is clamped), but
the code subtracts `max_x_v - max_x_c`, a negative number, from the width,
so an overflowing rectangle is enlarged instead of clamped: clip
(50,0,100,100) against viewport (0,0,100,100) comes back as (50,0,150,100),
whose right edge 200 exceeds the viewport's right edge 100. -/
theorem clampCliprect_widens_overflowing_rect :
    ClampCliprectToViewport ⟨50, 0, 100, 100⟩ ⟨0, 0, 100, 100⟩ = ⟨50, 0, 150, 100⟩ ∧
    ¬((ClampCliprectToViewport ⟨50, 0, 100, 100⟩ ⟨0, 0, 100, 100⟩).x +
        (ClampCliprectToViewport ⟨50, 0, 100, 100⟩ ⟨0, 0, 100, 100⟩).w ≤
        (0 : Int) + 100) := by
  constructor
  · rfl
  · decide

/-- C9 (amended) — on the Vita GXM backend, locking any texture that was
created with a render target (access = target) performs the sceGxmFinish
pipeline drain before the lock returns the pixel pointer. -/
theorem vita_lock_render_target_drains (tex : VitaTexture)
    (rectX rectY bpp : Nat) (h : tex.hasRendertarget = true) :
    (VITA_GXM_LockTexture tex rectX rectY bpp).events = [Ev.gxmFinish] := by
  simp [VITA_GXM_LockTexture, h]

theorem vita_lock_render_target_drains_witness :
    (({ pitch := 256, hasRendertarget := true } : VitaTexture).hasRendertarget
        = true) ∧
    (VITA_GXM_LockTexture { pitch := 256, hasRendertarget := true } 1 2 4).events
        = [Ev.gxmFinish] :=
  ⟨rfl, vita_lock_render_target_drains { pitch := 256, hasRendertarget := true }
    1 2 4 rfl⟩

end VitaGXM

namespace Residency

/-- C9 (counterexample) — the PSP backend's PSP_LockTexture performs no GPU
synchronization at all: locking a render-target texture returns the pixel
pointer with an empty native-call list, refuting the claim that every lock
of a render-target-capable texture drains the pipeline before returning. -/
theorem psp_lock_target_performs_no_drain :
    (PSP_LockTexture
      { texs := fun _ =>
          { alive := true, access := .target, width := 64, height := 64,
            size := 16384, pitch := 256, swizzled := false, inVram := true }
        lru := [0]
        mallocOk := true } 0 3 5 4).events = [] ∧
    (({ alive := true, access := .target, width := 64, height := 64,
        size := 16384, pitch := 256, swizzled := false, inVram := true } :
        PSPTex).access = Access.target) := by
  exact ⟨rfl, rfl⟩

/-- C5 (counterexample) — spilling an already swizzled (tiled) VRAM render
target to system memory keeps its bytes in the tiled form: the spill
succeeds and the texture is still swizzled afterwards, refuting the claim
that eviction re-lays tiled bytes out into linear form. -/
theorem spill_keeps_tiled_layout :
    (TextureSpillToSram
      { texs := fun _ =>
          { alive := true, access := .target, width := 32, height := 32,
            size := 4096, pitch := 128, swizzled := true, inVram := true }
        lru := [0]
        mallocOk := true } 0).1 = true ∧
    ((TextureSpillToSram
      { texs := fun _ =>
          { alive := true, access := .target, width := 32, height := 32,
            size := 4096, pitch := 128, swizzled := true, inVram := true }
        lru := [0]
        mallocOk := true } 0).2.texs 0).swizzled = true := by
  exact ⟨rfl, rfl⟩

/-- C5 (amended) — the migration layout transforms run in the opposite
directions from the ones claimed: a successful spill always leaves the
evicted texture's bytes in system memory in the swizzled (tiled) form
(swizzling them on the way out if they were linear), and promoting a
swizzled texture into VRAM as a render target converts it back to the
linear (untiled) form, render targets requiring the linear layout on this
backend. -/
theorem migration_layout_directions :
    (∀ (s : RState) (v : TexId), s.mallocOk = true →
      TextureSpillToSram s v =
        (true, setTex s v { s.texs v with swizzled := true, inVram := false })) ∧
    (∀ (s : RState) (v : TexId), (s.texs v).swizzled = true →
      TexturePromoteToVram s v true =
        setTex s v { s.texs v with swizzled := false, inVram := true }) := by
  constructor
  · intro s v hm
    rcases htex : s.texs v with ⟨al, ac, w, hh, sz, pi, sw, iv⟩
    cases sw
    · simp [TextureSpillToSram, TextureSwizzle, htex, hm]
    · simp [TextureSpillToSram, TextureSwizzle, htex, hm]
  · intro s v hsw
    rcases htex : s.texs v with ⟨al, ac, w, hh, sz, pi, sw, iv⟩
    rw [htex] at hsw
    simp at hsw
    subst hsw
    simp [TexturePromoteToVram, TextureUnswizzleToVram, htex]

lemma spillToSram_fails_of_not_mallocOk (s : RState) (w : TexId)
    (hm : s.mallocOk = false) : TextureSpillToSram s w = (false, s) := by
  by_cases hsw : (s.texs w).swizzled <;>
    simp [TextureSpillToSram, TextureSwizzle, hsw, hm]

lemma spillToSram_inVram_false (s : RState) (v w : TexId)
    (h : (s.texs v).inVram = false) :
    ((TextureSpillToSram s w).2.texs v).inVram = false := by
  by_cases hsw : (s.texs w).swizzled <;> by_cases hm : s.mallocOk <;>
    simp [TextureSpillToSram, TextureSwizzle, hsw, hm, setTex] <;>
    first
      | (split <;> simp [h])
      | exact h

lemma spillToSram_mallocOk (s : RState) (w : TexId) :
    (TextureSpillToSram s w).2.mallocOk = s.mallocOk := by
  by_cases hsw : (s.texs w).swizzled <;> by_cases hm : s.mallocOk <;>
    simp [TextureSpillToSram, TextureSwizzle, hsw, hm, setTex]

lemma spillLRU_inVram_false (s : RState) (v : TexId)
    (h : (s.texs v).inVram = false) :
    ((TextureSpillLRU s).2.texs v).inVram = false := by
  unfold TextureSpillLRU
  split
  · rename_i w hv
    split
    · rename_i s2 hsp
      have := spillToSram_inVram_false s v w h
      rw [hsp] at this
      simpa using this
    · rename_i s2 hsp
      have := spillToSram_inVram_false s v w h
      rw [hsp] at this
      simpa [LRUTargetRemove] using this
  · simpa using h

lemma spillLRU_mallocOk (s : RState) :
    (TextureSpillLRU s).2.mallocOk = s.mallocOk := by
  unfold TextureSpillLRU
  split
  · rename_i w hv
    split
    · rename_i s2 hsp
      have := spillToSram_mallocOk s w
      rw [hsp] at this
      simpa using this
    · rename_i s2 hsp
      have := spillToSram_mallocOk s w
      rw [hsp] at this
      simpa [LRUTargetRemove] using this
  · rfl

lemma spillTargets_inVram_false (vlb : RState → Nat) (s : RState)
    (size : Nat) (v : TexId) (h : (s.texs v).inVram = false) :
    ((TextureSpillTargetsForSpace vlb s size).2.texs v).inVram = false := by
  induction s, size using TextureSpillTargetsForSpace.induct vlb with
  | case1 s size hlt s1 hsp =>
    rw [TextureSpillTargetsForSpace, if_pos hlt, hsp]
    have := spillLRU_inVram_false s v h
    rwa [hsp] at this
  | case2 s size hlt s1 hsp ih =>
    rw [TextureSpillTargetsForSpace, if_pos hlt, hsp]
    apply ih
    have := spillLRU_inVram_false s v h
    rwa [hsp] at this
  | case3 s size hlt =>
    rw [TextureSpillTargetsForSpace, if_neg hlt]
    exact h

/-- C4 — eviction atomicity: when the spill copy fails (system-memory
allocation failure), TextureSpillLRU mutates nothing — the victim stays
linked exactly where it was, the whole state being returned unchanged —
and a failed TextureBindAsTarget leaves the requesting texture's residency
tier exactly as it was before the call. -/
theorem eviction_atomicity :
    (∀ s : RState, s.mallocOk = false → s.lru ≠ [] →
      TextureSpillLRU s = (false, s)) ∧
    (∀ (vlb : RState → Nat) (s : RState) (v : TexId),
      (TextureBindAsTarget vlb s v).1 = false →
      ((TextureBindAsTarget vlb s v).2.texs v).inVram = (s.texs v).inVram) := by
  constructor
  · intro s hm hne
    unfold TextureSpillLRU
    split
    · rename_i w hv
      rw [spillToSram_fails_of_not_mallocOk s w hm]
    · rfl
  · intro vlb s v h
    unfold TextureBindAsTarget at h ⊢
    by_cases hv : (s.texs v).inVram
    · rw [if_pos hv] at h
      simp at h
    · rw [if_neg hv] at h ⊢
      rcases hres : TextureSpillTargetsForSpace vlb s (s.texs v).size with ⟨ok, s1⟩
      cases ok
      · have hfalse : (s.texs v).inVram = false := by
          simpa using hv
        have h1 : (s1.texs v).inVram = false := by
          have := spillTargets_inVram_false vlb s (s.texs v).size v hfalse
          rwa [hres] at this
        dsimp only
        rw [h1, hfalse]
      · rw [hres] at h
        simp at h

theorem eviction_atomicity_witness :
    (({ texs := fun _ =>
          { alive := true, access := .target, width := 32, height := 32,
            size := 4096, pitch := 128, swizzled := false, inVram := true }
        lru := [0]
        mallocOk := false } : RState).mallocOk = false) ∧
    (({ texs := fun _ =>
          { alive := true, access := .target, width := 32, height := 32,
            size := 4096, pitch := 128, swizzled := false, inVram := true }
        lru := [0]
        mallocOk := false } : RState).lru ≠ []) ∧
    TextureSpillLRU
      { texs := fun _ =>
          { alive := true, access := .target, width := 32, height := 32,
            size := 4096, pitch := 128, swizzled := false, inVram := true }
        lru := [0]
        mallocOk := false } =
      (false,
        { texs := fun _ =>
            { alive := true, access := .target, width := 32, height := 32,
              size := 4096, pitch := 128, swizzled := false, inVram := true }
          lru := [0]
          mallocOk := false }) := by
  refine ⟨rfl, by simp, ?_⟩
  exact eviction_atomicity.1 _ rfl (by simp)

theorem migration_layout_directions_witness :
    (({ texs := fun _ =>
          { alive := true, access := .target, width := 32, height := 32,
            size := 4096, pitch := 128, swizzled := false, inVram := true }
        lru := [0]
        mallocOk := true } : RState).mallocOk = true) ∧
    (TextureSpillToSram
      { texs := fun _ =>
          { alive := true, access := .target, width := 32, height := 32,
            size := 4096, pitch := 128, swizzled := false, inVram := true }
        lru := [0]
        mallocOk := true } 0 =
      (true, setTex
        { texs := fun _ =>
            { alive := true, access := .target, width := 32, height := 32,
              size := 4096, pitch := 128, swizzled := false, inVram := true }
          lru := [0]
          mallocOk := true } 0
        { alive := true, access := .target, width := 32, height := 32,
          size := 4096, pitch := 128, swizzled := true, inVram := false })) := by
  refine ⟨rfl, ?_⟩
  exact migration_layout_directions.1 _ 0 rfl

lemma spillToSram_eq (s : RState) (v : TexId) (hm : s.mallocOk = true) :
    TextureSpillToSram s v =
      (true, setTex s v { s.texs v with swizzled := true, inVram := false }) := by
  rcases htex : s.texs v with ⟨al, ac, w, hh, sz, pi, sw, iv⟩
  cases sw
  · simp [TextureSpillToSram, TextureSwizzle, htex, hm]
  · simp [TextureSpillToSram, TextureSwizzle, htex, hm]

lemma evictLRU_some (s : RState) (v : TexId) (hv : s.lru.getLast? = some v) :
    evictLRU s =
      LRUTargetRemove
        (setTex s v { s.texs v with swizzled := true, inVram := false }) v := by
  unfold evictLRU
  split
  · rename_i w hw
    rw [hv] at hw
    rw [Option.some.injEq] at hw
    rw [hw]
  · rename_i hw
    rw [hv] at hw
    simp at hw

lemma evictLRU_nil (s : RState) (hnil : s.lru = []) : evictLRU s = s := by
  unfold evictLRU
  split
  · rename_i w hw
    rw [hnil] at hw
    simp at hw
  · rfl

lemma spillLRU_eq_of_mallocOk (s : RState) (hm : s.mallocOk = true) :
    TextureSpillLRU s =
      if s.lru = [] then (false, s) else (true, evictLRU s) := by
  unfold TextureSpillLRU
  split
  · rename_i v hv
    have hne : s.lru ≠ [] := by
      intro hnil
      rw [hnil] at hv
      simp at hv
    rw [spillToSram_eq s v hm, if_neg hne, evictLRU_some s v hv]
  · rename_i hv
    have hnil : s.lru = [] := by
      rcases List.eq_nil_or_concat s.lru with hnil | ⟨l', b, hcat⟩
      · exact hnil
      · rw [List.concat_eq_append] at hcat
        rw [hcat, List.getLast?_concat] at hv
        simp at hv
    rw [if_pos hnil]

lemma evictLRU_mallocOk (s : RState) : (evictLRU s).mallocOk = s.mallocOk := by
  unfold evictLRU
  split
  · rfl
  · rfl

lemma evictLRU_length (s : RState) (hne : s.lru ≠ []) :
    (evictLRU s).lru.length + 1 = s.lru.length := by
  rcases List.eq_nil_or_concat s.lru with hnil | ⟨l', b, hcat⟩
  · exact absurd hnil hne
  · rw [List.concat_eq_append] at hcat
    have hv : s.lru.getLast? = some b := by
      rw [hcat]
      exact List.getLast?_concat l'
    rw [evictLRU_some s b hv]
    have hmem : b ∈ s.lru := by
      rw [hcat]
      simp
    exact List.length_erase_add_one hmem

lemma spillTargets_eq_false (vlb : RState → Nat) (s : RState) (size : Nat)
    (s1 : RState) (hlt : vlb s < size) (hsp : TextureSpillLRU s = (false, s1)) :
    TextureSpillTargetsForSpace vlb s size = (false, s1) := by
  rw [TextureSpillTargetsForSpace, if_pos hlt]
  split
  · rename_i s2 h2
    rw [h2] at hsp
    rw [Prod.mk.injEq] at hsp
    rw [hsp.2]
  · rename_i s2 h2
    rw [h2] at hsp
    simp at hsp

lemma spillTargets_eq_step (vlb : RState → Nat) (s : RState) (size : Nat)
    (s1 : RState) (hlt : vlb s < size) (hsp : TextureSpillLRU s = (true, s1)) :
    TextureSpillTargetsForSpace vlb s size =
      TextureSpillTargetsForSpace vlb s1 size := by
  rw [TextureSpillTargetsForSpace, if_pos hlt]
  split
  · rename_i s2 h2
    rw [h2] at hsp
    simp at hsp
  · rename_i s2 h2
    rw [h2] at hsp
    rw [Prod.mk.injEq] at hsp
    rw [hsp.2]

/-- C1 — the spill loop evicts exactly the least-recently-used end of the
LRU list, one target at a time (`spillK` is the spec-side description of k
such evictions), until the largest contiguous free VRAM block reaches the
requested size; the operation fails exactly when the loop runs out of LRU
nodes with the space still insufficient.  The system-memory copies are
assumed to succeed (`mallocOk`); a failing copy is the separate
eviction-atomicity concern. -/
theorem lru_spill_loop_characterization (vlb : RState → Nat) (s : RState)
    (size : Nat) (hm : s.mallocOk = true) :
    ∃ k, k ≤ s.lru.length ∧
      (∀ m, m < k → vlb (spillK s m) < size) ∧
      (if size ≤ vlb (spillK s k)
        then TextureSpillTargetsForSpace vlb s size = (true, spillK s k)
        else k = s.lru.length ∧
          TextureSpillTargetsForSpace vlb s size = (false, spillK s k)) := by
  revert hm
  induction s, size using TextureSpillTargetsForSpace.induct vlb with
  | case1 s size hlt s1 hsp =>
    intro hm
    rw [spillLRU_eq_of_mallocOk s hm] at hsp
    by_cases hnil : s.lru = []
    · refine ⟨0, Nat.zero_le _, fun m hm0 => absurd hm0 (Nat.not_lt_zero m), ?_⟩
      rw [if_neg (by simpa [spillK] using Nat.not_le.mpr hlt)]
      constructor
      · rw [hnil]
        rfl
      · rw [if_pos hnil] at hsp
        rw [Prod.mk.injEq] at hsp
        rw [spillTargets_eq_false vlb s size s hlt
          (by rw [spillLRU_eq_of_mallocOk s hm, if_pos hnil])]
        simp [spillK]
    · rw [if_neg hnil] at hsp
      simp at hsp
  | case2 s size hlt s1 hsp ih =>
    intro hm
    have hs1m : s1.mallocOk = true := by
      have := spillLRU_mallocOk s
      rw [hsp] at this
      rw [this]
      exact hm
    have hev : s1 = evictLRU s ∧ s.lru ≠ [] := by
      rw [spillLRU_eq_of_mallocOk s hm] at hsp
      by_cases hnil : s.lru = []
      · rw [if_pos hnil] at hsp
        simp at hsp
      · rw [if_neg hnil] at hsp
        rw [Prod.mk.injEq] at hsp
        exact ⟨hsp.2.symm, hnil⟩
    have hlen : s1.lru.length + 1 = s.lru.length := by
      rw [hev.1]
      exact evictLRU_length s hev.2
    have hshift : ∀ m, spillK s (m + 1) = spillK s1 m := by
      intro m
      rw [spillK, ← hev.1]
    obtain ⟨k, hk, hall, hres⟩ := ih hs1m
    refine ⟨k + 1, by omega, ?_, ?_⟩
    · intro m hm2
      cases m with
      | zero => simpa [spillK] using hlt
      | succ m' =>
        rw [hshift m']
        exact hall m' (by omega)
    · rw [hshift k, spillTargets_eq_step vlb s size s1 hlt hsp]
      by_cases hc : size ≤ vlb (spillK s1 k)
      · rw [if_pos hc] at hres ⊢
        exact hres
      · rw [if_neg hc] at hres ⊢
        exact ⟨by omega, hres.2⟩
  | case3 s size hlt =>
    intro hm
    refine ⟨0, Nat.zero_le _, fun m hm0 => absurd hm0 (Nat.not_lt_zero m), ?_⟩
    rw [if_pos (by simpa [spillK] using Nat.le_of_not_lt hlt)]
    rw [TextureSpillTargetsForSpace, if_neg hlt]
    simp [spillK]

theorem lru_spill_loop_characterization_witness :
    let vlb0 : RState → Nat := fun st => if st.lru = [] then 10 else 0
    let s0 : RState :=
      { texs := fun _ =>
          { alive := true, access := .target, width := 32, height := 32,
            size := 4096, pitch := 128, swizzled := false, inVram := true }
        lru := [0]
        mallocOk := true }
    s0.mallocOk = true ∧
    ∃ k, k ≤ s0.lru.length ∧
      (∀ m, m < k → vlb0 (spillK s0 m) < 5) ∧
      (if 5 ≤ vlb0 (spillK s0 k)
        then TextureSpillTargetsForSpace vlb0 s0 5 = (true, spillK s0 k)
        else k = s0.lru.length ∧
          TextureSpillTargetsForSpace vlb0 s0 5 = (false, spillK s0 k)) := by
  intro vlb0 s0
  exact ⟨rfl, lru_spill_loop_characterization vlb0 s0 5 rfl⟩

lemma mem_of_getLastSome (l : List TexId) (v : TexId)
    (h : l.getLast? = some v) : v ∈ l := by
  rcases List.eq_nil_or_concat l with hnil | ⟨L, b, hcat⟩
  · rw [hnil] at h
    simp at h
  · rw [List.concat_eq_append] at hcat
    rw [hcat, List.getLast?_concat] at h
    rw [hcat]
    simp [Option.some.injEq] at h
    simp [h]

lemma spillLRU_fails_of_not_mallocOk (s : RState) (hm : s.mallocOk = false) :
    TextureSpillLRU s = (false, s) := by
  unfold TextureSpillLRU
  split
  · rename_i v hv
    rw [spillToSram_fails_of_not_mallocOk s v hm]
  · rfl

lemma inv_evictLRU (s : RState) (hInv : Inv s) : Inv (evictLRU s) := by
  rcases hg : s.lru.getLast? with _ | v
  · have hnil : s.lru = [] := by
      rcases List.eq_nil_or_concat s.lru with hnil | ⟨L, b, hcat⟩
      · exact hnil
      · rw [List.concat_eq_append] at hcat
        rw [hcat, List.getLast?_concat] at hg
        simp at hg
    rw [evictLRU_nil s hnil]
    exact hInv
  · rw [evictLRU_some s v hg]
    obtain ⟨hnd, hiff, hstr⟩ := hInv
    have hvmem := mem_of_getLastSome _ _ hg
    have hvfacts := (hiff v).mp hvmem
    refine ⟨?_, ?_, ?_⟩
    · simpa [LRUTargetRemove, setTex] using hnd.erase v
    · intro t
      by_cases htv : t = v
      · subst htv
        constructor
        · intro hmem
          exact absurd hmem
            (by simpa [LRUTargetRemove, setTex] using hnd.not_mem_erase)
        · rintro ⟨_, _, hIV⟩
          simp [LRUTargetRemove, setTex] at hIV
      · constructor
        · intro hmem
          simp only [LRUTargetRemove, setTex] at hmem ⊢
          have := (hnd.mem_erase_iff).mp hmem
          have hm2 := (hiff t).mp this.2
          simp [htv]
          exact hm2
        · intro hrhs
          simp only [LRUTargetRemove, setTex] at hrhs ⊢
          rw [if_neg htv] at hrhs
          exact (hnd.mem_erase_iff).mpr ⟨htv, (hiff t).mpr hrhs⟩
    · intro t hacc
      simp only [LRUTargetRemove, setTex] at hacc ⊢
      by_cases htv : t = v
      · subst htv
        rw [if_pos rfl] at hacc
        simp at hacc
        rw [hvfacts.2.1] at hacc
        simp at hacc
      · rw [if_neg htv] at hacc ⊢
        exact hstr t hacc

lemma inv_spillLRU (s : RState) (hInv : Inv s) :
    Inv (TextureSpillLRU s).2 := by
  by_cases hm : s.mallocOk
  · rw [spillLRU_eq_of_mallocOk s hm]
    by_cases hnil : s.lru = []
    · rw [if_pos hnil]
      exact hInv
    · rw [if_neg hnil]
      exact inv_evictLRU s hInv
  · rw [spillLRU_fails_of_not_mallocOk s (by simpa using hm)]
    exact hInv

lemma inv_spillTargets (vlb : RState → Nat) (s : RState) (size : Nat)
    (hInv : Inv s) : Inv (TextureSpillTargetsForSpace vlb s size).2 := by
  revert hInv
  induction s, size using TextureSpillTargetsForSpace.induct vlb with
  | case1 s size hlt s1 hsp =>
    intro hInv
    rw [spillTargets_eq_false vlb s size s1 hlt hsp]
    have := inv_spillLRU s hInv
    rwa [hsp] at this
  | case2 s size hlt s1 hsp ih =>
    intro hInv
    rw [spillTargets_eq_step vlb s size s1 hlt hsp]
    apply ih
    have := inv_spillLRU s hInv
    rwa [hsp] at this
  | case3 s size hlt =>
    intro hInv
    rw [TextureSpillTargetsForSpace, if_neg hlt]
    exact hInv

lemma spillLRU_alive_access (s : RState) (w : TexId) :
    ((TextureSpillLRU s).2.texs w).alive = (s.texs w).alive ∧
    ((TextureSpillLRU s).2.texs w).access = (s.texs w).access := by
  by_cases hm : s.mallocOk
  · rw [spillLRU_eq_of_mallocOk s hm]
    by_cases hnil : s.lru = []
    · rw [if_pos hnil]
      exact ⟨rfl, rfl⟩
    · rw [if_neg hnil]
      rcases hg : s.lru.getLast? with _ | v
      · rw [evictLRU_nil s (by
          rcases List.eq_nil_or_concat s.lru with hnil2 | ⟨L, b, hcat⟩
          · exact hnil2
          · rw [List.concat_eq_append] at hcat
            rw [hcat, List.getLast?_concat] at hg
            simp at hg)]
        exact ⟨rfl, rfl⟩
      · rw [evictLRU_some s v hg]
        simp only [LRUTargetRemove, setTex]
        by_cases hwv : w = v
        · subst hwv
          simp
        · simp [hwv]
  · rw [spillLRU_fails_of_not_mallocOk s (by simpa using hm)]
    exact ⟨rfl, rfl⟩

lemma spillTargets_alive_access (vlb : RState → Nat) (s : RState) (size : Nat)
    (w : TexId) :
    ((TextureSpillTargetsForSpace vlb s size).2.texs w).alive = (s.texs w).alive ∧
    ((TextureSpillTargetsForSpace vlb s size).2.texs w).access = (s.texs w).access := by
  induction s, size using TextureSpillTargetsForSpace.induct vlb with
  | case1 s size hlt s1 hsp =>
    rw [spillTargets_eq_false vlb s size s1 hlt hsp]
    have := spillLRU_alive_access s w
    rwa [hsp] at this
  | case2 s size hlt s1 hsp ih =>
    rw [spillTargets_eq_step vlb s size s1 hlt hsp]
    have h1 := spillLRU_alive_access s w
    rw [hsp] at h1
    exact ⟨ih.1.trans h1.1, ih.2.trans h1.2⟩
  | case3 s size hlt =>
    rw [TextureSpillTargetsForSpace, if_neg hlt]
    exact ⟨rfl, rfl⟩

lemma spillLRU_lru_subset (s : RState) :
    ∀ t : TexId, t ∈ (TextureSpillLRU s).2.lru → t ∈ s.lru := by
  intro t ht
  by_cases hm : s.mallocOk
  · rw [spillLRU_eq_of_mallocOk s hm] at ht
    by_cases hnil : s.lru = []
    · rw [if_pos hnil] at ht
      exact ht
    · rw [if_neg hnil] at ht
      rcases hg : s.lru.getLast? with _ | v
      · rw [evictLRU_nil s (by
          rcases List.eq_nil_or_concat s.lru with hnil2 | ⟨L, b, hcat⟩
          · exact hnil2
          · rw [List.concat_eq_append] at hcat
            rw [hcat, List.getLast?_concat] at hg
            simp at hg)] at ht
        exact ht
      · rw [evictLRU_some s v hg] at ht
        simp only [LRUTargetRemove, setTex] at ht
        exact List.mem_of_mem_erase ht
  · rw [spillLRU_fails_of_not_mallocOk s (by simpa using hm)] at ht
    exact ht

lemma spillTargets_lru_subset (vlb : RState → Nat) (s : RState) (size : Nat) :
    ∀ t : TexId, t ∈ (TextureSpillTargetsForSpace vlb s size).2.lru →
      t ∈ s.lru := by
  induction s, size using TextureSpillTargetsForSpace.induct vlb with
  | case1 s size hlt s1 hsp =>
    intro t ht
    rw [spillTargets_eq_false vlb s size s1 hlt hsp] at ht
    have := spillLRU_lru_subset s t
    rw [hsp] at this
    exact this ht
  | case2 s size hlt s1 hsp ih =>
    intro t ht
    rw [spillTargets_eq_step vlb s size s1 hlt hsp] at ht
    have h1 := spillLRU_lru_subset s t
    rw [hsp] at h1
    exact h1 (ih t ht)
  | case3 s size hlt =>
    intro t ht
    rw [TextureSpillTargetsForSpace, if_neg hlt] at ht
    exact ht

lemma bringFront_head (s : RState) (v : TexId) :
    (LRUTargetBringFront s v).lru.head? = some v := by
  unfold LRUTargetBringFront
  split
  · rename_i h
    exact h
  · simp [LRUTargetPushFront, LRUTargetRemove]

lemma inv_bringFront (s : RState) (v : TexId) (hInv : Inv s)
    (halive : (s.texs v).alive = true)
    (htarget : (s.texs v).access = .target)
    (hvram : (s.texs v).inVram = true) :
    Inv (LRUTargetBringFront s v) := by
  obtain ⟨hnd, hiff, hstr⟩ := hInv
  unfold LRUTargetBringFront
  split
  · exact ⟨hnd, hiff, hstr⟩
  · refine ⟨?_, ?_, hstr⟩
    · simp only [LRUTargetPushFront, LRUTargetRemove]
      exact List.Nodup.cons (hnd.not_mem_erase) (hnd.erase v)
    · intro t
      simp only [LRUTargetPushFront, LRUTargetRemove, List.mem_cons]
      by_cases htv : t = v
      · subst htv
        simp [halive, htarget, hvram]
      · constructor
        · intro hmem
          rcases hmem with heq | hmem
          · exact absurd heq htv
          · exact (hiff t).mp ((hnd.mem_erase_iff).mp hmem).2
        · intro hrhs
          exact Or.inr ((hnd.mem_erase_iff).mpr ⟨htv, (hiff t).mpr hrhs⟩)

lemma promote_texs (s : RState) (v : TexId) (target : Bool) (t : TexId) :
    (TexturePromoteToVram s v target).texs t =
      if t = v then
        { s.texs v with
          swizzled := (s.texs v).swizzled && !target
          inVram := true }
      else s.texs t := by
  unfold TexturePromoteToVram TextureUnswizzleToVram
  by_cases hsw : (s.texs v).swizzled <;> cases target <;>
    by_cases htv : t = v <;>
    simp [setTex, hsw, htv]

lemma promote_lru (s : RState) (v : TexId) (target : Bool) :
    (TexturePromoteToVram s v target).lru = s.lru := by
  unfold TexturePromoteToVram TextureUnswizzleToVram
  by_cases hsw : ((s.texs v).swizzled && target) = true <;>
    simp [hsw, setTex]

lemma promote_mallocOk (s : RState) (v : TexId) (target : Bool) :
    (TexturePromoteToVram s v target).mallocOk = s.mallocOk := by
  unfold TexturePromoteToVram TextureUnswizzleToVram
  by_cases hsw : ((s.texs v).swizzled && target) = true <;>
    simp [hsw, setTex]

lemma inv_bringFront_of_not_mem (s : RState) (v : TexId)
    (hnd : s.lru.Nodup)
    (hiffothers : ∀ t : TexId, t ≠ v → (t ∈ s.lru ↔
      ((s.texs t).alive = true ∧ (s.texs t).access = .target ∧
        (s.texs t).inVram = true)))
    (hnotmem : v ∉ s.lru)
    (halive : (s.texs v).alive = true)
    (htarget : (s.texs v).access = .target)
    (hvram : (s.texs v).inVram = true)
    (hstr : ∀ t : TexId, (s.texs t).access = .streaming →
      (s.texs t).swizzled = false) :
    Inv (LRUTargetBringFront s v) := by
  unfold LRUTargetBringFront
  split
  · rename_i h
    exact absurd (List.mem_of_mem_head? (show v ∈ s.lru.head? by rw [h]; rfl))
      hnotmem
  · refine ⟨?_, ?_, hstr⟩
    · simp only [LRUTargetPushFront, LRUTargetRemove]
      exact List.Nodup.cons (hnd.not_mem_erase) (hnd.erase v)
    · intro t
      simp only [LRUTargetPushFront, LRUTargetRemove, List.mem_cons]
      by_cases htv : t = v
      · subst htv
        simp [halive, htarget, hvram]
      · constructor
        · intro hmem
          rcases hmem with heq | hmem
          · exact absurd heq htv
          · exact (hiffothers t htv).mp ((hnd.mem_erase_iff).mp hmem).2
        · intro hrhs
          exact Or.inr ((hnd.mem_erase_iff).mpr ⟨htv, (hiffothers t htv).mpr hrhs⟩)

lemma inv_bind (vlb : RState → Nat) (s : RState) (v : TexId) (hInv : Inv s)
    (halive : (s.texs v).alive = true)
    (htarget : (s.texs v).access = .target) :
    Inv (TextureBindAsTarget vlb s v).2 := by
  unfold TextureBindAsTarget
  by_cases hv : (s.texs v).inVram
  · rw [if_pos hv]
    exact inv_bringFront s v hInv halive htarget hv
  · rw [if_neg hv]
    rcases hres : TextureSpillTargetsForSpace vlb s (s.texs v).size with ⟨ok, s1⟩
    have hInv1 : Inv s1 := by
      have := inv_spillTargets vlb s (s.texs v).size hInv
      rwa [hres] at this
    cases ok
    · exact hInv1
    · dsimp only
      obtain ⟨hnd1, hiff1, hstr1⟩ := hInv1
      have haa := spillTargets_alive_access vlb s (s.texs v).size v
      rw [hres] at haa
      have halive1 : (s1.texs v).alive = true := haa.1.trans halive
      have htarget1 : (s1.texs v).access = .target := haa.2.trans htarget
      have hnotmem : v ∉ s1.lru := by
        intro hmem
        have := ((hiff1 v).mp hmem).2.2
        have hsub := spillTargets_lru_subset vlb s (s.texs v).size v
        rw [hres] at hsub
        have hmem0 := hsub hmem
        obtain ⟨_, hiff0, _⟩ := hInv
        have := ((hiff0 v).mp hmem0).2.2
        exact hv this
      set s2 := TexturePromoteToVram s1 v true with hs2
      apply inv_bringFront_of_not_mem s2 v
      · rw [hs2, promote_lru]
        exact hnd1
      · intro t htv
        rw [hs2, promote_lru, promote_texs, if_neg htv]
        exact hiff1 t
      · rw [hs2, promote_lru]
        exact hnotmem
      · rw [hs2, promote_texs, if_pos rfl]
        exact halive1
      · rw [hs2, promote_texs, if_pos rfl]
        exact htarget1
      · rw [hs2, promote_texs, if_pos rfl]
      · intro t hacc
        rw [hs2, promote_texs] at hacc ⊢
        by_cases htv : t = v
        · rw [if_pos htv] at hacc
          simp only at hacc
          rw [htarget1] at hacc
          simp at hacc
        · rw [if_neg htv] at hacc ⊢
          exact hstr1 t hacc

lemma bringFront_texs (s : RState) (v : TexId) :
    (LRUTargetBringFront s v).texs = s.texs := by
  unfold LRUTargetBringFront LRUTargetPushFront LRUTargetRemove
  split <;> rfl

lemma inv_create (vlb : RState → Nat) (s : RState) (v : TexId) (acc : Access)
    (w h size pitch : Nat) (hInv : Inv s)
    (hfresh : (s.texs v).alive = false) :
    Inv (PSP_CreateTexture vlb s v acc w h size pitch).2 := by
  unfold PSP_CreateTexture
  by_cases hacc : acc = Access.target
  · rw [if_pos hacc]
    rcases hres : TextureSpillTargetsForSpace vlb s size with ⟨ok, s1⟩
    have hInv1 : Inv s1 := by
      have := inv_spillTargets vlb s size hInv
      rwa [hres] at this
    cases ok
    · exact hInv1
    · dsimp only
      obtain ⟨hnd1, hiff1, hstr1⟩ := hInv1
      have halive1 : (s1.texs v).alive = false := by
        have := spillTargets_alive_access vlb s size v
        rw [hres] at this
        exact this.1.trans hfresh
      have hnotmem : v ∉ s1.lru := by
        intro hmem
        have := ((hiff1 v).mp hmem).1
        rw [halive1] at this
        simp at this
      refine ⟨?_, ?_, ?_⟩
      · simp only [LRUTargetPushFront, setTex]
        exact List.Nodup.cons hnotmem hnd1
      · intro t
        simp only [LRUTargetPushFront, setTex, List.mem_cons]
        by_cases htv : t = v
        · subst htv
          simp [hacc]
        · simp only [if_neg htv]
          constructor
          · intro hmem
            rcases hmem with heq | hmem
            · exact absurd heq htv
            · exact (hiff1 t).mp hmem
          · intro hrhs
            exact Or.inr ((hiff1 t).mpr hrhs)
      · intro t ha
        simp only [LRUTargetPushFront, setTex] at ha ⊢
        by_cases htv : t = v
        · rw [if_pos htv] at ha
          simp only at ha
          rw [hacc] at ha
          simp at ha
        · rw [if_neg htv] at ha ⊢
          exact hstr1 t ha
  · rw [if_neg hacc]
    by_cases hm : s.mallocOk
    · rw [if_pos hm]
      obtain ⟨hnd, hiff, hstr⟩ := hInv
      have hnotmem : v ∉ s.lru := by
        intro hmem
        have := ((hiff v).mp hmem).1
        rw [hfresh] at this
        simp at this
      refine ⟨hnd, ?_, ?_⟩
      · intro t
        simp only [setTex]
        by_cases htv : t = v
        · subst htv
          simp [hnotmem]
        · rw [if_neg htv]
          exact hiff t
      · intro t ha
        simp only [setTex] at ha ⊢
        by_cases htv : t = v
        · rw [if_pos htv]
        · rw [if_neg htv] at ha ⊢
          exact hstr t ha
    · rw [if_neg hm]
      exact hInv

lemma inv_activate (s : RState) (v : TexId) (hInv : Inv s) :
    Inv (TextureActivate s v) := by
  unfold TextureActivate
  by_cases hss : TextureShouldSwizzle (s.texs v)
  · rw [if_pos hss]
    have hfacts := hss
    simp only [TextureShouldSwizzle, Bool.and_eq_true, Bool.or_eq_true,
      Bool.not_eq_true', Bool.and_eq_false_iff, decide_eq_false_iff_not,
      decide_eq_true_eq] at hfacts
    unfold TextureSwizzle
    by_cases hsw : (s.texs v).swizzled
    · rw [if_pos hsw]
      exact hInv
    · rw [if_neg hsw]
      by_cases hm : s.mallocOk
      · rw [if_pos hm]
        dsimp only
        obtain ⟨hnd, hiff, hstr⟩ := hInv
        have hnotmem : v ∉ s.lru := by
          intro hmem
          obtain ⟨_, htgt, hvr⟩ := (hiff v).mp hmem
          rcases hfacts.1.1 with hcase | hcase
          · exact hcase htgt
          · rw [hvr] at hcase
            simp at hcase
        refine ⟨hnd, ?_, ?_⟩
        · intro t
          simp only [setTex]
          by_cases htv : t = v
          · subst htv
            simp [hnotmem]
          · rw [if_neg htv]
            exact hiff t
        · intro t ha
          simp only [setTex] at ha ⊢
          by_cases htv : t = v
          · rw [if_pos htv] at ha
            simp only at ha
            exact absurd ha hfacts.1.2
          · rw [if_neg htv] at ha ⊢
            exact hstr t ha
      · rw [if_neg hm]
        exact hInv
  · rw [if_neg hss]
    exact hInv

lemma inv_destroy (s : RState) (v : TexId) (hInv : Inv s) :
    Inv (PSP_DestroyTexture s v) := by
  unfold PSP_DestroyTexture LRUTargetRemove
  obtain ⟨hnd, hiff, hstr⟩ := hInv
  refine ⟨?_, ?_, ?_⟩
  · simpa [setTex] using hnd.erase v
  · intro t
    simp only [setTex]
    by_cases htv : t = v
    · subst htv
      constructor
      · intro hmem
        exact absurd hmem (by simpa using hnd.not_mem_erase)
      · rintro ⟨ha, _, _⟩
        simp at ha
    · simp only [List.mem_cons, if_neg htv]
      constructor
      · intro hmem
        exact (hiff t).mp ((hnd.mem_erase_iff).mp hmem).2
      · intro hrhs
        exact (hnd.mem_erase_iff).mpr ⟨htv, (hiff t).mpr hrhs⟩
  · intro t ha
    simp only [setTex] at ha ⊢
    by_cases htv : t = v
    · rw [if_pos htv] at ha ⊢
      simp only at ha ⊢
      exact hstr v ha
    · rw [if_neg htv] at ha ⊢
      exact hstr t ha

lemma inv_init (m : Bool) : Inv (initState m) := by
  refine ⟨List.nodup_nil, ?_, ?_⟩
  · intro t
    simp [initState]
  · intro t ha
    simp [initState] at ha

lemma reachable_inv (vlb : RState → Nat) (s : RState)
    (h : Reachable vlb s) : Inv s := by
  induction h with
  | init m => exact inv_init m
  | step hr hstep ih =>
    cases hstep with
    | create v acc w hh size pitch hfresh =>
      exact inv_create vlb _ v acc w hh size pitch ih hfresh
    | bind v halive htarget =>
      exact inv_bind vlb _ v ih halive htarget
    | activate v halive =>
      exact inv_activate _ v ih
    | destroy v =>
      exact inv_destroy _ v ih

/-- C3 — the residency invariant: in every reachable renderer state, an
alive target-access texture whose bytes are in VRAM has exactly one node in
the LRU list, and every successful TextureBindAsTarget leaves the bound
texture fast-tier-resident and at the most-recently-used head of the list. -/
theorem residency_invariant :
    (∀ (vlb : RState → Nat) (s : RState), Reachable vlb s →
      ∀ t : TexId, (s.texs t).alive = true → (s.texs t).access = .target →
        (s.texs t).inVram = true → s.lru.count t = 1) ∧
    (∀ (vlb : RState → Nat) (s : RState) (v : TexId),
      (TextureBindAsTarget vlb s v).1 = true →
      ((TextureBindAsTarget vlb s v).2.texs v).inVram = true ∧
      (TextureBindAsTarget vlb s v).2.lru.head? = some v) := by
  constructor
  · intro vlb s hr t h1 h2 h3
    obtain ⟨hnd, hiff, _⟩ := reachable_inv vlb s hr
    exact List.count_eq_one_of_mem hnd ((hiff t).mpr ⟨h1, h2, h3⟩)
  · intro vlb s v hok
    unfold TextureBindAsTarget at hok ⊢
    by_cases hv : (s.texs v).inVram
    · rw [if_pos hv]
      refine ⟨?_, bringFront_head s v⟩
      rw [bringFront_texs]
      exact hv
    · rw [if_neg hv] at hok ⊢
      rcases hres : TextureSpillTargetsForSpace vlb s (s.texs v).size with ⟨ok, s1⟩
      cases ok
      · rw [hres] at hok
        simp at hok
      · dsimp only
        refine ⟨?_, bringFront_head _ v⟩
        rw [bringFront_texs, promote_texs, if_pos rfl]

theorem residency_invariant_witness :
    let s1 := (PSP_CreateTexture (fun _ => 1000) (initState true) 0 .target
      8 8 256 32).2
    s1.lru.count 0 = 1 ∧
    (TextureBindAsTarget (fun _ => 1000) s1 0).1 = true ∧
    ((TextureBindAsTarget (fun _ => 1000) s1 0).2.texs 0).inVram = true ∧
    (TextureBindAsTarget (fun _ => 1000) s1 0).2.lru.head? = some 0 := by
  intro s1
  have hreach : Reachable (fun _ => 1000) s1 :=
    Reachable.step (Reachable.init true)
      (StepR.create (initState true) 0 .target 8 8 256 32 rfl)
  have hloop : TextureSpillTargetsForSpace (fun _ => 1000) (initState true)
      256 = (true, initState true) := by
    rw [TextureSpillTargetsForSpace]
    norm_num
  have hs1 : s1 = LRUTargetPushFront
      (setTex (initState true) 0
        { alive := true, access := .target, width := 8, height := 8,
          size := 256, pitch := 32, swizzled := false, inVram := true }) 0 := by
    show (PSP_CreateTexture (fun _ => 1000) (initState true) 0 .target
      8 8 256 32).2 = _
    unfold PSP_CreateTexture
    rw [if_pos rfl, hloop]
  have h1 : (s1.texs 0).alive = true := by
    rw [hs1]
    rfl
  have h2 : (s1.texs 0).access = .target := by
    rw [hs1]
    rfl
  have h3 : (s1.texs 0).inVram = true := by
    rw [hs1]
    rfl
  have hbind : (TextureBindAsTarget (fun _ => 1000) s1 0).1 = true := by
    unfold TextureBindAsTarget
    rw [if_pos h3]
  exact ⟨residency_invariant.1 (fun _ => 1000) s1 hreach 0 h1 h2 h3,
    hbind, (residency_invariant.2 (fun _ => 1000) s1 0 hbind).1,
    (residency_invariant.2 (fun _ => 1000) s1 0 hbind).2⟩

/-- C10 — streaming textures are never swizzled: TextureShouldSwizzle
rejects them, TextureActivate therefore leaves them untouched, and in every
reachable renderer state a streaming texture's bytes are in the linear
(unswizzled) layout — so the pointer PSP_LockTexture returns for a
streaming texture always addresses linear row-major pixel data. -/
theorem streaming_textures_never_swizzled :
    (∀ t : PSPTex, t.access = .streaming → TextureShouldSwizzle t = false) ∧
    (∀ (s : RState) (v : TexId), (s.texs v).access = .streaming →
      TextureActivate s v = s) ∧
    (∀ (vlb : RState → Nat) (s : RState), Reachable vlb s →
      ∀ v : TexId, (s.texs v).access = .streaming →
        (s.texs v).swizzled = false) := by
  refine ⟨?_, ?_, ?_⟩
  · intro t h
    simp [TextureShouldSwizzle, h]
  · intro s v h
    have hss : TextureShouldSwizzle (s.texs v) = false := by
      simp [TextureShouldSwizzle, h]
    simp [TextureActivate, hss]
  · intro vlb s hr v hacc
    exact (reachable_inv vlb s hr).2.2 v hacc

theorem streaming_textures_never_swizzled_witness :
    let s1 := (PSP_CreateTexture (fun _ => 1000) (initState true) 0
      .streaming 8 8 256 32).2
    TextureShouldSwizzle (s1.texs 0) = false ∧
    TextureActivate s1 0 = s1 ∧
    (s1.texs 0).swizzled = false := by
  intro s1
  have hreach : Reachable (fun _ => 1000) s1 :=
    Reachable.step (Reachable.init true)
      (StepR.create (initState true) 0 .streaming 8 8 256 32 rfl)
  have hs1 : s1 = setTex (initState true) 0
      { alive := true, access := .streaming, width := 8, height := 8,
        size := 256, pitch := 32, swizzled := false, inVram := false } := by
    show (PSP_CreateTexture (fun _ => 1000) (initState true) 0 .streaming
      8 8 256 32).2 = _
    unfold PSP_CreateTexture
    rw [if_neg (by decide)]
    rfl
  have hacc : (s1.texs 0).access = .streaming := by
    rw [hs1]
    rfl
  exact ⟨streaming_textures_never_swizzled.1 (s1.texs 0) hacc,
    streaming_textures_never_swizzled.2.1 s1 0 hacc,
    streaming_textures_never_swizzled.2.2 (fun _ => 1000) s1 hreach 0 hacc⟩

end Residency


namespace VitaGXM

lemma drawDataOf_mkDraw (tag : DrawTag) (d : DrawData) :
    drawDataOf (mkDraw tag d) = some (tag, d) := by
  cases tag <;> rfl

lemma mergeRun_all (tag : DrawTag) (d : DrawData) (run : List VitaCmd)
    (hall : ∀ c ∈ run, canMerge tag d c = true) :
    mergeRun tag d run = (sumCounts run, []) := by
  induction run with
  | nil => rfl
  | cons c rest ih =>
    have hc : canMerge tag d c = true := hall c (List.mem_cons_self c rest)
    cases hd : drawDataOf c with
    | none =>
      rw [canMerge, hd] at hc
      simp at hc
    | some p =>
      rw [mergeRun, if_pos hc, hd]
      rw [ih (fun c2 hc2 => hall c2 (List.mem_cons_of_mem c hc2))]
      rw [sumCounts, hd]

lemma runLoop_nil (data : GXMData) : runLoop data [] = (data, [Ev.endScene]) := by
  rw [runLoop]

lemma runLoop_cons_draw (data : GXMData) (c : VitaCmd) (rest : List VitaCmd)
    (tag : DrawTag) (d : DrawData) (h : drawDataOf c = some (tag, d)) :
    runLoop data (c :: rest) =
      ((runLoop (SetDrawState data d).1 (mergeRun tag d rest).2).1,
        (SetDrawState data d).2 ++
          drawCalls tag (d.count + (mergeRun tag d rest).1) ++
          (runLoop (SetDrawState data d).1 (mergeRun tag d rest).2).2) := by
  rw [runLoop, h]
  all_goals
    intros
    subst_vars
    simp [drawDataOf] at h

lemma avc_events (data : GXMData) :
    drawEvents (applyViewportClip data).2.1 = [] ∧
    bindCalls (applyViewportClip data).2.1 = [] := by
  unfold applyViewportClip
  dsimp only
  split_ifs <;> simp [drawEvents, bindCalls, isGxmDraw, isBindCall]

lemma apt_no_draw (data : GXMData) (cmd : DrawData) (mu : Bool) :
    drawEvents (applyProgramsAndTexture data cmd mu).2 = [] := by
  unfold applyProgramsAndTexture
  cases hct : cmd.texture <;> dsimp only <;>
    split_ifs <;> simp [drawEvents, isGxmDraw]

lemma setDrawState_no_draw (data : GXMData) (cmd : DrawData) :
    drawEvents (SetDrawState data cmd).2 = [] := by
  have h1 := (avc_events data).1
  have h2 := apt_no_draw (applyViewportClip data).1 cmd
    (applyViewportClip data).2.2
  unfold SetDrawState
  dsimp only
  unfold drawEvents at h1 h2 ⊢
  rw [List.filter_append, h1, h2]
  rfl

lemma runLoop_single_run (data : GXMData) (tag : DrawTag) (d : DrawData)
    (run : List VitaCmd) (hall : ∀ c ∈ run, canMerge tag d c = true) :
    drawEvents (runLoop data (mkDraw tag d :: run)).2 =
      [Ev.gxmDraw (primOf tag) (d.count + sumCounts run)] := by
  rw [runLoop_cons_draw data (mkDraw tag d) run tag d (drawDataOf_mkDraw tag d)]
  rw [mergeRun_all tag d run hall]
  dsimp only
  rw [runLoop_nil]
  dsimp only
  have h1 := setDrawState_no_draw data d
  unfold drawEvents at h1 ⊢
  rw [List.filter_append, List.filter_append, h1]
  cases tag <;>
    simp [drawCalls, isGxmDraw, primOf, PRIM_POINTS, PRIM_LINES, PRIM_TRIANGLES]

/-- C2 (counterexample) — a queue holding a single DrawLines command whose
queued count is 0 (a 1-point line list: VITA_GXM_QueueDrawLines stores
(1-1)*2 = 0 vertices) still makes the translator issue one native
sceGxmDraw call, of vertex count 0 — not zero native draw calls as the
claim states. -/
theorem zero_count_line_emits_native_draw :
    let d0 : DrawData :=
      { texture := none, blend := .bBlend, texture_scale_mode := .nearest,
        texture_address_mode_u := .clampAddr,
        texture_address_mode_v := .clampAddr,
        count := queuedLinesCount 1 }
    let data0 : GXMData :=
      { currentBlendMode := .bNone
        colorFragmentProgram := .colorFP .bNone
        textureFragmentProgram := .textureFP .bNone
        drawstate :=
          { viewport := ⟨0, 0, 960, 544⟩, viewport_dirty := false,
            viewport_is_set := false, texture := none,
            fragment_program := none, vertex_program := none,
            cliprect_enabled_dirty := false, cliprect_enabled := false,
            cliprect_dirty := false, cliprect := ⟨0, 0, 0, 0⟩,
            drawablew := 960, drawableh := 544 }
        texCache := fun _ =>
          { scale_mode := .invalid, address_mode_u := .invalid,
            address_mode_v := .invalid } }
    drawEvents (VITA_GXM_RunCommandQueue data0 [VitaCmd.drawLines d0]).2 =
      [Ev.gxmDraw PRIM_LINES 0] := by
  intro d0 data0
  have h := runLoop_single_run (startDrawingReset data0) .lines d0 []
    (fun c hc => absurd hc (List.not_mem_nil c))
  unfold VITA_GXM_RunCommandQueue
  simpa [queuedLinesCount, sumCounts, primOf, mkDraw] using h

/-- C2 (amended) — batching correctness: a maximal run of consecutive draw
commands of one command type sharing texture and blend mode is translated
into exactly one native sceGxmDraw whose vertex count is the sum of the
run's queued counts; in particular a 2-point DrawLines followed by a
3-point DrawLines with the same texture and blend yields one native LINE
draw of 2+4 = 6 vertices.  (A command whose count is 0 still participates:
a run never produces more than one native draw call, but a lone zero-count
command produces one zero-vertex call rather than none.) -/
theorem batching_single_native_call :
    (∀ (data : GXMData) (tag : DrawTag) (d : DrawData) (run : List VitaCmd),
      (∀ c ∈ run, canMerge tag d c = true) →
      drawEvents (runLoop data (mkDraw tag d :: run)).2 =
        [Ev.gxmDraw (primOf tag) (d.count + sumCounts run)]) ∧
    (∀ (data : GXMData) (d : DrawData),
      drawEvents (runLoop data
        [VitaCmd.drawLines { d with count := queuedLinesCount 2 },
         VitaCmd.drawLines { d with count := queuedLinesCount 3 }]).2 =
        [Ev.gxmDraw PRIM_LINES 6]) := by
  constructor
  · exact fun data tag d run hall => runLoop_single_run data tag d run hall
  · intro data d
    have h := runLoop_single_run data .lines
      { d with count := queuedLinesCount 2 }
      [VitaCmd.drawLines { d with count := queuedLinesCount 3 }]
      (by
        intro c hc
        rw [List.mem_singleton] at hc
        subst hc
        simp [canMerge, drawDataOf])
    simpa [queuedLinesCount, sumCounts, drawDataOf, primOf, mkDraw] using h

theorem batching_single_native_call_witness :
    let d0 : DrawData :=
      { texture := none, blend := .bBlend, texture_scale_mode := .nearest,
        texture_address_mode_u := .clampAddr,
        texture_address_mode_v := .clampAddr,
        count := 3 }
    let data0 : GXMData :=
      { currentBlendMode := .bNone
        colorFragmentProgram := .colorFP .bNone
        textureFragmentProgram := .textureFP .bNone
        drawstate :=
          { viewport := ⟨0, 0, 960, 544⟩, viewport_dirty := false,
            viewport_is_set := false, texture := none,
            fragment_program := none, vertex_program := none,
            cliprect_enabled_dirty := false, cliprect_enabled := false,
            cliprect_dirty := false, cliprect := ⟨0, 0, 0, 0⟩,
            drawablew := 960, drawableh := 544 }
        texCache := fun _ =>
          { scale_mode := .invalid, address_mode_u := .invalid,
            address_mode_v := .invalid } }
    drawEvents (runLoop data0 (mkDraw .geom d0 :: [mkDraw .geom d0])).2 =
      [Ev.gxmDraw (primOf .geom) (d0.count + sumCounts [mkDraw .geom d0])] ∧
    drawEvents (runLoop data0
      [VitaCmd.drawLines { d0 with count := queuedLinesCount 2 },
       VitaCmd.drawLines { d0 with count := queuedLinesCount 3 }]).2 =
      [Ev.gxmDraw PRIM_LINES 6] := by
  intro d0 data0
  constructor
  · exact batching_single_native_call.1 data0 .geom d0 [mkDraw .geom d0]
      (by
        intro c hc
        rw [List.mem_singleton] at hc
        subst hc
        rfl)
  · exact batching_single_native_call.2 data0 d0

end VitaGXM

namespace VitaGXM

lemma avc_preserves (data : GXMData) :
    (applyViewportClip data).1.currentBlendMode = data.currentBlendMode ∧
    (applyViewportClip data).1.colorFragmentProgram =
      data.colorFragmentProgram ∧
    (applyViewportClip data).1.textureFragmentProgram =
      data.textureFragmentProgram ∧
    (applyViewportClip data).1.texCache = data.texCache ∧
    (applyViewportClip data).1.drawstate.texture = data.drawstate.texture ∧
    (applyViewportClip data).1.drawstate.vertex_program =
      data.drawstate.vertex_program ∧
    (applyViewportClip data).1.drawstate.fragment_program =
      data.drawstate.fragment_program := by
  unfold applyViewportClip
  dsimp only
  split_ifs <;> simp

lemma setBlendMode_spec (data : GXMData) (b : GXMBlend)
    (hco : blendCoherent data) :
    (VITA_GXM_SetBlendMode data b).currentBlendMode = b ∧
    (VITA_GXM_SetBlendMode data b).colorFragmentProgram = .colorFP b ∧
    (VITA_GXM_SetBlendMode data b).textureFragmentProgram = .textureFP b ∧
    (VITA_GXM_SetBlendMode data b).drawstate = data.drawstate ∧
    (VITA_GXM_SetBlendMode data b).texCache = data.texCache := by
  unfold VITA_GXM_SetBlendMode
  by_cases hbe : b = data.currentBlendMode
  · rw [if_neg (fun hne => hne hbe)]
    refine ⟨hbe.symm, ?_, ?_, rfl, rfl⟩
    · rw [hco.1, hbe]
    · rw [hco.2, hbe]
  · rw [if_pos hbe]
    cases b <;> exact ⟨rfl, rfl, rfl, rfl, rfl⟩

set_option maxHeartbeats 2000000 in
lemma apt_bind_spec (data : GXMData) (cmd : DrawData) (mu : Bool)
    (hco : blendCoherent data)
    (hvp : data.drawstate.vertex_program = some (vertProgFor cmd.texture))
    (hfp : data.drawstate.fragment_program =
      some (fragProgFor cmd.texture data.currentBlendMode))
    (htex : data.drawstate.texture = cmd.texture) :
    bindCalls (applyProgramsAndTexture data cmd mu).2 =
      (if cmd.blend = data.currentBlendMode then []
       else [Ev.setFragmentProgram (fragProgFor cmd.texture cmd.blend)]) := by
  obtain ⟨hb1, hb2, hb3, hb4, hb5⟩ := setBlendMode_spec data cmd.blend hco
  unfold applyProgramsAndTexture
  dsimp only
  rw [hb2, hb3, hb4, hb5, htex]
  by_cases hbl : cmd.blend = data.currentBlendMode
  · rw [if_pos hbl]
    cases hct : cmd.texture with
    | none =>
      rw [hct] at hvp hfp
      dsimp only [vertProgFor, fragProgFor] at hvp hfp
      rw [hvp]
      split_ifs <;> try simp_all [bindCalls, isBindCall]
      all_goals
        first
          | (constructor <;> (intro a ha; split_ifs at ha <;> simp_all))
          | (intro a ha; split_ifs at ha <;> simp_all)
    | some t =>
      rw [hct] at hvp hfp
      dsimp only [vertProgFor, fragProgFor] at hvp hfp
      rw [hvp]
      split_ifs <;> try simp_all [bindCalls, isBindCall]
      all_goals
        first
          | (constructor <;> (intro a ha; split_ifs at ha <;> simp_all))
          | (intro a ha; split_ifs at ha <;> simp_all)
  · rw [if_neg hbl]
    cases hct : cmd.texture with
    | none =>
      rw [hct] at hvp hfp
      dsimp only [vertProgFor, fragProgFor] at hvp hfp ⊢
      rw [hvp]
      split_ifs <;> try simp_all [bindCalls, isBindCall]
      all_goals
        first
          | (constructor <;> (intro a ha; split_ifs at ha <;> simp_all))
          | (intro a ha; split_ifs at ha <;> simp_all)
    | some t =>
      rw [hct] at hvp hfp
      dsimp only [vertProgFor, fragProgFor] at hvp hfp ⊢
      rw [hvp]
      split_ifs <;> try simp_all [bindCalls, isBindCall]
      all_goals
        first
          | (constructor <;> (intro a ha; split_ifs at ha <;> simp_all))
          | (intro a ha; split_ifs at ha <;> simp_all)

set_option maxHeartbeats 1000000 in
lemma setDrawState_post (data : GXMData) (c : DrawData)
    (hco : blendCoherent data) :
    blendCoherent (SetDrawState data c).1 ∧
    (SetDrawState data c).1.currentBlendMode = c.blend ∧
    (SetDrawState data c).1.drawstate.vertex_program =
      some (vertProgFor c.texture) ∧
    (SetDrawState data c).1.drawstate.fragment_program =
      some (fragProgFor c.texture c.blend) ∧
    (SetDrawState data c).1.drawstate.texture = c.texture := by
  obtain ⟨ha1, ha2, ha3, ha4, ha5, ha6, ha7⟩ := avc_preserves data
  have hco1 : blendCoherent (applyViewportClip data).1 :=
    ⟨by rw [ha2, ha1]; exact hco.1, by rw [ha3, ha1]; exact hco.2⟩
  obtain ⟨hb1, hb2, hb3, hb4, hb5⟩ :=
    setBlendMode_spec (applyViewportClip data).1 c.blend hco1
  unfold SetDrawState
  dsimp only
  unfold applyProgramsAndTexture
  dsimp only
  rw [hb4]
  refine ⟨⟨?_, ?_⟩, ?_, ?_, ?_, ?_⟩
  · dsimp only
    rw [hb2, hb1]
  · dsimp only
    rw [hb3, hb1]
  · dsimp only
    exact hb1
  · dsimp only
    cases hct : c.texture <;> dsimp only [vertProgFor] <;>
      split_ifs <;> simp_all
  · dsimp only
    cases hct : c.texture <;>
      dsimp only [vertProgFor, fragProgFor] <;>
      split_ifs <;> simp_all
  · dsimp only
    cases hct : c.texture <;> split_ifs <;> simp_all

/-- C7 — draw-state cache minimality: after SetDrawState has translated a
draw command, translating a second draw command with the same texture and
blend mode emits zero native program-bind or texture-bind calls; and a
second command differing only in blend mode emits exactly one native call
for the blend change — the bind of the blend-specific fragment program,
which is how this backend realizes a blend-state change — with no
vertex-program rebind and no texture rebind.  (blendCoherent is the
gxm_init-established agreement between the cached blend mode and the
selected fragment programs, preserved by every SetBlendMode.) -/
theorem draw_state_cache_minimality (data : GXMData) (c1 c2 : DrawData)
    (hco : blendCoherent data) (htex : c2.texture = c1.texture) :
    (c2.blend = c1.blend →
      bindCalls (SetDrawState (SetDrawState data c1).1 c2).2 = []) ∧
    (c2.blend ≠ c1.blend →
      bindCalls (SetDrawState (SetDrawState data c1).1 c2).2 =
        [Ev.setFragmentProgram (fragProgFor c2.texture c2.blend)]) := by
  obtain ⟨hco1, hblend1, hvp1, hfp1, htex1⟩ := setDrawState_post data c1 hco
  set d1 := (SetDrawState data c1).1 with hd1
  obtain ⟨hp1, hp2, hp3, hp4, hp5, hp6, hp7⟩ := avc_preserves d1
  have hco2 : blendCoherent (applyViewportClip d1).1 :=
    ⟨by rw [hp2, hp1]; exact hco1.1, by rw [hp3, hp1]; exact hco1.2⟩
  have hv2 : (applyViewportClip d1).1.drawstate.vertex_program =
      some (vertProgFor c2.texture) := by
    rw [hp6, htex]
    exact hvp1
  have hf2 : (applyViewportClip d1).1.drawstate.fragment_program =
      some (fragProgFor c2.texture (applyViewportClip d1).1.currentBlendMode) := by
    rw [hp7, hp1, hblend1, htex]
    exact hfp1
  have ht2 : (applyViewportClip d1).1.drawstate.texture = c2.texture := by
    rw [hp5, htex]
    exact htex1
  have happt := apt_bind_spec (applyViewportClip d1).1 c2
    (applyViewportClip d1).2.2 hco2 hv2 hf2 ht2
  have hsplit : bindCalls (SetDrawState d1 c2).2 =
      bindCalls (applyViewportClip d1).2.1 ++
        bindCalls (applyProgramsAndTexture (applyViewportClip d1).1 c2
          (applyViewportClip d1).2.2).2 := by
    unfold SetDrawState
    dsimp only
    unfold bindCalls
    rw [List.filter_append]
  constructor
  · intro hbeq
    rw [hsplit, (avc_events d1).2, happt]
    rw [if_pos (by rw [hp1, hblend1]; exact hbeq)]
    rfl
  · intro hbne
    rw [hsplit, (avc_events d1).2, happt]
    rw [if_neg (by rw [hp1, hblend1]; exact hbne)]
    rfl

theorem draw_state_cache_minimality_witness :
    let data0 : GXMData :=
      { currentBlendMode := .bNone
        colorFragmentProgram := .colorFP .bNone
        textureFragmentProgram := .textureFP .bNone
        drawstate :=
          { viewport := ⟨0, 0, 960, 544⟩, viewport_dirty := false,
            viewport_is_set := false, texture := none,
            fragment_program := none, vertex_program := none,
            cliprect_enabled_dirty := false, cliprect_enabled := false,
            cliprect_dirty := false, cliprect := ⟨0, 0, 0, 0⟩,
            drawablew := 960, drawableh := 544 }
        texCache := fun _ =>
          { scale_mode := .invalid, address_mode_u := .invalid,
            address_mode_v := .invalid } }
    let c1 : DrawData :=
      { texture := none, blend := .bBlend, texture_scale_mode := .nearest,
        texture_address_mode_u := .clampAddr,
        texture_address_mode_v := .clampAddr, count := 3 }
    blendCoherent data0 ∧
    ({ c1 with count := 7 } : DrawData).texture = c1.texture ∧
    ({ c1 with count := 7 } : DrawData).blend = c1.blend ∧
    bindCalls (SetDrawState (SetDrawState data0 c1).1
      { c1 with count := 7 }).2 = [] ∧
    ({ c1 with blend := .bAdd } : DrawData).blend ≠ c1.blend ∧
    bindCalls (SetDrawState (SetDrawState data0 c1).1
      { c1 with blend := .bAdd }).2 =
      [Ev.setFragmentProgram
        (fragProgFor ({ c1 with blend := .bAdd } : DrawData).texture .bAdd)] := by
  intro data0 c1
  refine ⟨⟨rfl, rfl⟩, rfl, rfl, ?_, by decide, ?_⟩
  · exact (draw_state_cache_minimality data0 c1 { c1 with count := 7 }
      ⟨rfl, rfl⟩ rfl).1 rfl
  · exact (draw_state_cache_minimality data0 c1 { c1 with blend := .bAdd }
      ⟨rfl, rfl⟩ rfl).2 (by decide)

end VitaGXM

namespace Codec

lemma wr_hit (m : Nat → Nat) (a v : Nat) : wr m a v a = v := by
  simp [wr]

lemma wr_miss (m : Nat → Nat) (a v x : Nat) (h : x ≠ a) : wr m a v x = m x := by
  simp [wr, h]

lemma wr4_hit (dst : Nat → Nat) (b : Nat) (src : Nat → Nat) (s w : Nat)
    (hw : w < 4) : wr4 dst b src s (b + w) = src (s + w) := by
  interval_cases w <;> simp only [wr4, wr] <;> split_ifs <;>
    first | rfl | (exfalso; omega)

lemma wr4_miss (dst : Nat → Nat) (b : Nat) (src : Nat → Nat) (s x : Nat)
    (hx : x < b ∨ b + 4 ≤ x) : wr4 dst b src s x = dst x := by
  simp only [wr4, wr]
  split_ifs <;> first | (exfalso; omega) | rfl

lemma copyBlocks_miss (src : Nat → Nat) (skip : Nat) :
    ∀ (n s b : Nat) (dst : Nat → Nat) (x : Nat),
    (∀ k w, k < n → w < 4 → x ≠ b + (k * (4 + skip) + w)) →
    copyBlocks src skip s b dst n x = dst x := by
  intro n
  induction n with
  | zero => intro s b dst x _; rfl
  | succ n ih =>
    intro s b dst x hx
    show copyBlocks src skip (s + 4) (b + 4 + skip) (wr4 dst b src s) n x = dst x
    have hcond : ∀ k w, k < n → w < 4 →
        x ≠ (b + 4 + skip) + (k * (4 + skip) + w) := by
      intro k w hk hw he
      apply hx (k + 1) w (by omega) hw
      have hmul : (k + 1) * (4 + skip) = k * (4 + skip) + (4 + skip) := by ring
      obtain ⟨M, hM⟩ : ∃ M, k * (4 + skip) = M := ⟨_, rfl⟩
      obtain ⟨N, hN⟩ : ∃ N, (k + 1) * (4 + skip) = N := ⟨_, rfl⟩
      rw [hM] at he hmul
      rw [hN] at hmul ⊢
      omega
    rw [ih (s + 4) (b + 4 + skip) (wr4 dst b src s) x hcond]
    apply wr4_miss
    have h0 := hx 0 0 (by omega) (by omega)
    have h1 := hx 0 1 (by omega) (by omega)
    have h2 := hx 0 2 (by omega) (by omega)
    have h3 := hx 0 3 (by omega) (by omega)
    simp only [Nat.zero_mul, Nat.zero_add] at h0 h1 h2 h3
    omega

lemma copyBlocks_hit (src : Nat → Nat) (skip : Nat) :
    ∀ (n s b : Nat) (dst : Nat → Nat) (k w : Nat), k < n → w < 4 →
    copyBlocks src skip s b dst n (b + (k * (4 + skip) + w))
      = src (s + (4 * k + w)) := by
  intro n
  induction n with
  | zero => intro s b dst k w hk _; exact absurd hk (Nat.not_lt_zero k)
  | succ n ih =>
    intro s b dst k w hk hw
    show copyBlocks src skip (s + 4) (b + 4 + skip) (wr4 dst b src s) n
      (b + (k * (4 + skip) + w)) = src (s + (4 * k + w))
    obtain hk0 | hkpos := Nat.eq_zero_or_pos k
    · subst hk0
      have hidx : b + (0 * (4 + skip) + w) = b + w := by
        simp
      rw [hidx]
      have hcond : ∀ k' w', k' < n → w' < 4 →
          b + w ≠ (b + 4 + skip) + (k' * (4 + skip) + w') := by
        intro k' w' hk' hw' he
        obtain ⟨M, hM⟩ : ∃ M, k' * (4 + skip) = M := ⟨_, rfl⟩
        rw [hM] at he
        omega
      rw [copyBlocks_miss src skip n (s + 4) (b + 4 + skip)
        (wr4 dst b src s) (b + w) hcond]
      have hval : s + (4 * 0 + w) = s + w := by simp
      rw [hval]
      exact wr4_hit dst b src s w hw
    · obtain ⟨k', rfl⟩ : ∃ k', k = k' + 1 := ⟨k - 1, by omega⟩
      have hidx : b + ((k' + 1) * (4 + skip) + w)
          = (b + 4 + skip) + (k' * (4 + skip) + w) := by
        have hmul : (k' + 1) * (4 + skip) = k' * (4 + skip) + (4 + skip) := by
          ring
        obtain ⟨M, hM⟩ : ∃ M, k' * (4 + skip) = M := ⟨_, rfl⟩
        obtain ⟨N, hN⟩ : ∃ N, (k' + 1) * (4 + skip) = N := ⟨_, rfl⟩
        rw [hM] at hmul ⊢
        rw [hN] at hmul ⊢
        omega
      rw [hidx, ih (s + 4) (b + 4 + skip) (wr4 dst b src s) k' w (by omega) hw]
      congr 1
      omega

lemma rowBase_succ (rb j : Nat) :
    rowBase rb (j + 1) =
      rowBase rb j + (if j % 8 == 7 then (rb - 1) * 128 else 0) + 16 := by
  simp only [rowBase]
  split_ifs with h7
  · have h7' : j % 8 = 7 := by simpa using h7
    have hD : (j + 1) / 8 = j / 8 + 1 := by omega
    rw [hD, Nat.mul_succ]
    ring
  · have h7' : ¬ j % 8 = 7 := by simpa using h7
    have hD : (j + 1) / 8 = j / 8 := by omega
    rw [hD]
    ring

lemma rowBase_posW (rb j k w : Nat) (hrb : 0 < rb) :
    rowBase rb j / 4 + (k * 32 + w) = posW rb j k w := by
  obtain ⟨m, rfl⟩ : ∃ m, rb = m + 1 := ⟨rb - 1, by omega⟩
  simp only [rowBase, posW, Nat.add_sub_cancel]
  rw [add_one_mul]
  obtain ⟨X, hX⟩ : ∃ X, m * (j / 8) = X := ⟨_, rfl⟩
  rw [hX]
  omega

lemma posW_div32 (rb j k w : Nat) (hw : w < 4) :
    posW rb j k w / 32 = rb * (j / 8) + k := by
  simp only [posW]
  obtain ⟨Q, hQ⟩ : ∃ Q, rb * (j / 8) + k = Q := ⟨_, rfl⟩
  rw [hQ]
  omega

lemma posW_mod32 (rb j k w : Nat) (hw : w < 4) :
    posW rb j k w % 32 = 4 * (j % 8) + w := by
  simp only [posW]
  obtain ⟨Q, hQ⟩ : ∃ Q, rb * (j / 8) + k = Q := ⟨_, rfl⟩
  rw [hQ]
  omega

lemma posW_row (rb j k w : Nat) (hrb : 0 < rb) (hk : k < rb) (hw : w < 4) :
    8 * (posW rb j k w / 32 / rb) + posW rb j k w % 32 / 4 = j := by
  rw [posW_div32 rb j k w hw, posW_mod32 rb j k w hw]
  rw [Nat.mul_add_div hrb, Nat.div_eq_of_lt hk]
  omega

lemma posW_ne_of_row_ne (rb : Nat) (hrb : 0 < rb) (j1 k1 w1 j2 k2 w2 : Nat)
    (hk1 : k1 < rb) (hw1 : w1 < 4) (hk2 : k2 < rb) (hw2 : w2 < 4)
    (hj : j1 ≠ j2) : posW rb j1 k1 w1 ≠ posW rb j2 k2 w2 := by
  intro he
  apply hj
  have h1 := posW_row rb j1 k1 w1 hrb hk1 hw1
  have h2 := posW_row rb j2 k2 w2 hrb hk2 hw2
  rw [← h1, ← h2, he]

lemma mul_add_div_eq (d q c : Nat) (hd : 0 < d) (hc : c < d) :
    (q * d + c) / d = q := by
  rw [Nat.mul_comm, Nat.mul_add_div hd, Nat.div_eq_of_lt hc]
  omega

lemma swizzleRows_miss (src : Nat → Nat) (rb : Nat) (hrb : 0 < rb) :
    ∀ (n s j : Nat) (dst : Nat → Nat) (x : Nat),
    (∀ r k w, r < n → k < rb → w < 4 → x ≠ posW rb (j + r) k w) →
    swizzleRows src rb ((rb - 1) * 128) s (rowBase rb j) j dst n x = dst x := by
  intro n
  induction n with
  | zero => intro s j dst x _; rfl
  | succ n ih =>
    intro s j dst x hx
    show swizzleRows src rb ((rb - 1) * 128) (s + 4 * rb)
      (rowBase rb j + (if j % 8 == 7 then (rb - 1) * 128 else 0) + 16) (j + 1)
      (copyBlocks src 28 s (rowBase rb j / 4) dst rb) n x = dst x
    rw [← rowBase_succ rb j]
    have htail : ∀ r k w, r < n → k < rb → w < 4 →
        x ≠ posW rb ((j + 1) + r) k w := by
      intro r k w hr hk hw
      have h1 := hx (r + 1) k w (by omega) hk hw
      have hjr : (j + 1) + r = j + (r + 1) := by omega
      rw [hjr]
      exact h1
    rw [ih (s + 4 * rb) (j + 1) (copyBlocks src 28 s (rowBase rb j / 4) dst rb)
      x htail]
    apply copyBlocks_miss src 28 rb s (rowBase rb j / 4) dst x
    intro k w hk hw
    have h2 : rowBase rb j / 4 + (k * (4 + 28) + w) = posW rb j k w := by
      have h3 : k * (4 + 28) = k * 32 := by norm_num
      rw [h3]
      exact rowBase_posW rb j k w hrb
    rw [h2]
    exact hx 0 k w (by omega) hk hw

lemma swizzleRows_hit (src : Nat → Nat) (rb : Nat) (hrb : 0 < rb) :
    ∀ (n s j : Nat) (dst : Nat → Nat) (r k w : Nat),
    r < n → k < rb → w < 4 →
    swizzleRows src rb ((rb - 1) * 128) s (rowBase rb j) j dst n
      (posW rb (j + r) k w) = src (s + (4 * (rb * r) + (4 * k + w))) := by
  intro n
  induction n with
  | zero => intro s j dst r k w hr _ _; exact absurd hr (Nat.not_lt_zero r)
  | succ n ih =>
    intro s j dst r k w hr hk hw
    show swizzleRows src rb ((rb - 1) * 128) (s + 4 * rb)
      (rowBase rb j + (if j % 8 == 7 then (rb - 1) * 128 else 0) + 16) (j + 1)
      (copyBlocks src 28 s (rowBase rb j / 4) dst rb) n (posW rb (j + r) k w)
      = src (s + (4 * (rb * r) + (4 * k + w)))
    rw [← rowBase_succ rb j]
    obtain hr0 | hrpos := Nat.eq_zero_or_pos r
    · subst hr0
      have hmiss : ∀ r' k' w', r' < n → k' < rb → w' < 4 →
          posW rb (j + 0) k w ≠ posW rb ((j + 1) + r') k' w' := by
        intro r' k' w' _ hk' hw'
        exact posW_ne_of_row_ne rb hrb (j + 0) k w ((j + 1) + r') k' w'
          hk hw hk' hw' (by omega)
      rw [swizzleRows_miss src rb hrb n (s + 4 * rb) (j + 1)
        (copyBlocks src 28 s (rowBase rb j / 4) dst rb)
        (posW rb (j + 0) k w) hmiss]
      have hidx : posW rb (j + 0) k w
          = rowBase rb j / 4 + (k * (4 + 28) + w) := by
        show posW rb j k w = rowBase rb j / 4 + (k * (4 + 28) + w)
        have h3 : k * (4 + 28) = k * 32 := by norm_num
        rw [h3]
        exact (rowBase_posW rb j k w hrb).symm
      rw [hidx, copyBlocks_hit src 28 rb s (rowBase rb j / 4) dst k w hk hw]
      congr 1
      omega
    · obtain ⟨r', rfl⟩ : ∃ r', r = r' + 1 := ⟨r - 1, by omega⟩
      have hjr : j + (r' + 1) = (j + 1) + r' := by omega
      rw [hjr, ih (s + 4 * rb) (j + 1)
        (copyBlocks src 28 s (rowBase rb j / 4) dst rb) r' k w (by omega) hk hw]
      congr 1
      have hm : rb * (r' + 1) = rb * r' + rb := by ring
      obtain ⟨X, hX⟩ : ∃ X, rb * r' = X := ⟨_, rfl⟩
      rw [hm, hX]
      omega

lemma swizzle_fields (t : PSPTextureData) (dst : Nat → Nat) :
    (TextureSwizzle t dst).size = t.size ∧
    (TextureSwizzle t dst).textureWidth = t.textureWidth ∧
    (TextureSwizzle t dst).bits = t.bits := by
  unfold TextureSwizzle
  split_ifs <;> exact ⟨rfl, rfl, rfl⟩

lemma swizzle_swizzled (t : PSPTextureData) (dst : Nat → Nat)
    (h : t.swizzled = false) : (TextureSwizzle t dst).swizzled = true := by
  unfold TextureSwizzle
  rw [if_neg (by simp [h])]

lemma swizzle_dataW (t : PSPTextureData) (dst : Nat → Nat) (rb hb : Nat)
    (hrb : 0 < rb) (hbw : bytewidthOf t = 16 * rb)
    (hsz : t.size = bytewidthOf t * (8 * hb)) (hsw : t.swizzled = false)
    (j k w : Nat) (hj : j < 8 * hb) (hk : k < rb) (hw : w < 4) :
    (TextureSwizzle t dst).dataW (posW rb j k w)
      = t.dataW (4 * (rb * j) + (4 * k + w)) := by
  have hq : bytewidthOf t / 16 = rb := by rw [hbw]; omega
  have hh : t.size / bytewidthOf t = 8 * hb := by
    rw [hsz, hbw]
    exact Nat.mul_div_cancel_left _ (by omega)
  unfold TextureSwizzle
  rw [if_neg (by simp [hsw])]
  show swizzleRows t.dataW (bytewidthOf t / 16) ((bytewidthOf t / 16 - 1) * 128)
    0 0 0 dst (t.size / bytewidthOf t) (posW rb j k w)
    = t.dataW (4 * (rb * j) + (4 * k + w))
  rw [hq, hh]
  have happ := swizzleRows_hit t.dataW rb hrb (8 * hb) 0 0 dst j k w hj hk hw
  have hrb0 : rowBase rb 0 = 0 := by simp [rowBase]
  rw [hrb0] at happ
  have h0j : 0 + j = j := by omega
  rw [h0j] at happ
  have h0s : 0 + (4 * (rb * j) + (4 * k + w)) = 4 * (rb * j) + (4 * k + w) := by
    obtain ⟨P, hP⟩ : ∃ P, rb * j = P := ⟨_, rfl⟩
    rw [hP]
    omega
  rw [h0s] at happ
  exact happ

lemma unswizzleX_miss (src : Nat → Nat) (rb : Nat) (hrb : 0 < rb) :
    ∀ (n s xw : Nat) (dst : Nat → Nat) (x : Nat),
    (∀ i jj w, i < n → jj < 8 → w < 4 →
      x ≠ xw + 4 * i + (jj * (4 * rb) + w)) →
    unswizzleX src (4 * (rb - 1)) s (4 * xw) dst n x = dst x := by
  intro n
  induction n with
  | zero => intro s xw dst x _; rfl
  | succ n ih =>
    intro s xw dst x hx
    show unswizzleX src (4 * (rb - 1)) (s + 32) (4 * xw + 16)
      (copyBlocks src (4 * (rb - 1)) s (4 * xw / 4) dst 8) n x = dst x
    have h16 : 4 * xw + 16 = 4 * (xw + 4) := by omega
    rw [h16]
    have htail : ∀ i jj w, i < n → jj < 8 → w < 4 →
        x ≠ (xw + 4) + 4 * i + (jj * (4 * rb) + w) := by
      intro i jj w hi hjj hw he
      refine hx (i + 1) jj w (by omega) hjj hw ?_
      obtain ⟨M, hM⟩ : ∃ M, jj * (4 * rb) = M := ⟨_, rfl⟩
      rw [hM] at he ⊢
      omega
    rw [ih (s + 32) (xw + 4)
      (copyBlocks src (4 * (rb - 1)) s (4 * xw / 4) dst 8) x htail]
    have hb4 : 4 * xw / 4 = xw := by omega
    rw [hb4]
    apply copyBlocks_miss
    intro k w hk hw he
    refine hx 0 k w (by omega) hk hw ?_
    rw [he]
    have h1 : 4 + 4 * (rb - 1) = 4 * rb := by omega
    rw [h1]
    obtain ⟨M, hM⟩ : ∃ M, k * (4 * rb) = M := ⟨_, rfl⟩
    rw [hM]
    omega

lemma unswizzleX_hit (src : Nat → Nat) (rb : Nat) (hrb : 0 < rb) :
    ∀ (n s xw : Nat) (dst : Nat → Nat) (i jj w : Nat),
    i < n → n ≤ rb → jj < 8 → w < 4 →
    unswizzleX src (4 * (rb - 1)) s (4 * xw) dst n
      (xw + 4 * i + (jj * (4 * rb) + w)) = src (s + 32 * i + (4 * jj + w)) := by
  intro n
  induction n with
  | zero => intro s xw dst i jj w hi _ _ _; exact absurd hi (Nat.not_lt_zero i)
  | succ n ih =>
    intro s xw dst i jj w hi hn hjj hw
    show unswizzleX src (4 * (rb - 1)) (s + 32) (4 * xw + 16)
      (copyBlocks src (4 * (rb - 1)) s (4 * xw / 4) dst 8) n
      (xw + 4 * i + (jj * (4 * rb) + w)) = src (s + 32 * i + (4 * jj + w))
    have h16 : 4 * xw + 16 = 4 * (xw + 4) := by omega
    rw [h16]
    obtain hi0 | hipos := Nat.eq_zero_or_pos i
    · subst hi0
      have hmiss : ∀ i' jj' w', i' < n → jj' < 8 → w' < 4 →
          xw + 4 * 0 + (jj * (4 * rb) + w)
            ≠ (xw + 4) + 4 * i' + (jj' * (4 * rb) + w') := by
        intro i' jj' w' hi' hjj' hw' he
        have hlt2 : 4 + 4 * i' + w' < 4 * rb := by omega
        have h1 : jj * (4 * rb) + w = jj' * (4 * rb) + (4 + 4 * i' + w') := by
          obtain ⟨M, hM⟩ : ∃ M, jj * (4 * rb) = M := ⟨_, rfl⟩
          obtain ⟨N, hN⟩ : ∃ N, jj' * (4 * rb) = N := ⟨_, rfl⟩
          rw [hM, hN] at he ⊢
          omega
        have hjje : jj = jj' := by
          have e1 := mul_add_div_eq (4 * rb) jj w (by omega) (by omega)
          have e2 := mul_add_div_eq (4 * rb) jj' (4 + 4 * i' + w')
            (by omega) hlt2
          rw [← e1, ← e2, h1]
        subst hjje
        obtain ⟨M, hM⟩ : ∃ M, jj * (4 * rb) = M := ⟨_, rfl⟩
        rw [hM] at h1
        omega
      rw [unswizzleX_miss src rb hrb n (s + 32) (xw + 4)
        (copyBlocks src (4 * (rb - 1)) s (4 * xw / 4) dst 8)
        (xw + 4 * 0 + (jj * (4 * rb) + w)) hmiss]
      have hb4 : 4 * xw / 4 = xw := by omega
      rw [hb4]
      have hidx : xw + 4 * 0 + (jj * (4 * rb) + w)
          = xw + (jj * (4 + 4 * (rb - 1)) + w) := by
        have h1 : 4 + 4 * (rb - 1) = 4 * rb := by omega
        rw [h1]
        obtain ⟨M, hM⟩ : ∃ M, jj * (4 * rb) = M := ⟨_, rfl⟩
        rw [hM]
        omega
      rw [hidx, copyBlocks_hit src (4 * (rb - 1)) 8 s xw dst jj w hjj hw]
      congr 1
    · obtain ⟨i', rfl⟩ : ∃ i', i = i' + 1 := ⟨i - 1, by omega⟩
      have hidx : xw + 4 * (i' + 1) + (jj * (4 * rb) + w)
          = (xw + 4) + 4 * i' + (jj * (4 * rb) + w) := by
        obtain ⟨M, hM⟩ : ∃ M, jj * (4 * rb) = M := ⟨_, rfl⟩
        rw [hM]
        omega
      rw [hidx, ih (s + 32) (xw + 4)
        (copyBlocks src (4 * (rb - 1)) s (4 * xw / 4) dst 8) i' jj w
        (by omega) (by omega) hjj hw]
      congr 1
      omega

lemma unswizzleY_miss (src : Nat → Nat) (rb : Nat) (hrb : 0 < rb) :
    ∀ (n s yw : Nat) (dst : Nat → Nat) (x : Nat),
    (∀ q i jj w, q < n → i < rb → jj < 8 → w < 4 →
      x ≠ (yw + 32 * rb * q) + 4 * i + (jj * (4 * rb) + w)) →
    unswizzleY src rb (4 * (rb - 1)) (128 * rb) s (4 * yw) dst n x = dst x := by
  intro n
  induction n with
  | zero => intro s yw dst x _; rfl
  | succ n ih =>
    intro s yw dst x hx
    show unswizzleY src rb (4 * (rb - 1)) (128 * rb) (s + 32 * rb)
      (4 * yw + 128 * rb) (unswizzleX src (4 * (rb - 1)) s (4 * yw) dst rb) n x
      = dst x
    have h128 : 4 * yw + 128 * rb = 4 * (yw + 32 * rb) := by omega
    rw [h128]
    have htail : ∀ q i jj w, q < n → i < rb → jj < 8 → w < 4 →
        x ≠ ((yw + 32 * rb) + 32 * rb * q) + 4 * i + (jj * (4 * rb) + w) := by
      intro q i jj w hq hi hjj hw he
      refine hx (q + 1) i jj w (by omega) hi hjj hw ?_
      rw [he]
      have hm : 32 * rb * (q + 1) = 32 * rb * q + 32 * rb := by ring
      obtain ⟨A, hA⟩ : ∃ A, 32 * rb * q = A := ⟨_, rfl⟩
      obtain ⟨B, hB⟩ : ∃ B, jj * (4 * rb) = B := ⟨_, rfl⟩
      rw [hm, hA, hB]
      omega
    rw [ih (s + 32 * rb) (yw + 32 * rb)
      (unswizzleX src (4 * (rb - 1)) s (4 * yw) dst rb) x htail]
    apply unswizzleX_miss src rb hrb rb s yw dst x
    intro i jj w hi hjj hw he
    refine hx 0 i jj w (by omega) hi hjj hw ?_
    rw [he]
    obtain ⟨B, hB⟩ : ∃ B, jj * (4 * rb) = B := ⟨_, rfl⟩
    rw [hB]
    omega

lemma unswizzleY_hit (src : Nat → Nat) (rb : Nat) (hrb : 0 < rb) :
    ∀ (n s yw : Nat) (dst : Nat → Nat) (q i jj w : Nat),
    q < n → i < rb → jj < 8 → w < 4 →
    unswizzleY src rb (4 * (rb - 1)) (128 * rb) s (4 * yw) dst n
      ((yw + 32 * rb * q) + 4 * i + (jj * (4 * rb) + w))
      = src (s + 32 * rb * q + (32 * i + (4 * jj + w))) := by
  intro n
  induction n with
  | zero =>
    intro s yw dst q i jj w hq _ _ _
    exact absurd hq (Nat.not_lt_zero q)
  | succ n ih =>
    intro s yw dst q i jj w hq hi hjj hw
    show unswizzleY src rb (4 * (rb - 1)) (128 * rb) (s + 32 * rb)
      (4 * yw + 128 * rb) (unswizzleX src (4 * (rb - 1)) s (4 * yw) dst rb) n
      ((yw + 32 * rb * q) + 4 * i + (jj * (4 * rb) + w))
      = src (s + 32 * rb * q + (32 * i + (4 * jj + w)))
    have h128 : 4 * yw + 128 * rb = 4 * (yw + 32 * rb) := by omega
    rw [h128]
    obtain hq0 | hqpos := Nat.eq_zero_or_pos q
    · subst hq0
      have hmiss : ∀ q' i' jj' w', q' < n → i' < rb → jj' < 8 → w' < 4 →
          (yw + 32 * rb * 0) + 4 * i + (jj * (4 * rb) + w)
            ≠ ((yw + 32 * rb) + 32 * rb * q') + 4 * i' + (jj' * (4 * rb) + w') := by
        intro q' i' jj' w' hq' hi' hjj' hw' he
        have hB1 : jj * (4 * rb) ≤ 7 * (4 * rb) :=
          Nat.mul_le_mul_right _ (by omega)
        obtain ⟨B, hB⟩ : ∃ B, jj * (4 * rb) = B := ⟨_, rfl⟩
        obtain ⟨C, hC⟩ : ∃ C, jj' * (4 * rb) = C := ⟨_, rfl⟩
        obtain ⟨A, hA⟩ : ∃ A, 32 * rb * q' = A := ⟨_, rfl⟩
        rw [hB] at hB1 he
        rw [hC, hA] at he
        omega
      rw [unswizzleY_miss src rb hrb n (s + 32 * rb) (yw + 32 * rb)
        (unswizzleX src (4 * (rb - 1)) s (4 * yw) dst rb)
        ((yw + 32 * rb * 0) + 4 * i + (jj * (4 * rb) + w)) hmiss]
      have hidx : (yw + 32 * rb * 0) + 4 * i + (jj * (4 * rb) + w)
          = yw + 4 * i + (jj * (4 * rb) + w) := by
        obtain ⟨B, hB⟩ : ∃ B, jj * (4 * rb) = B := ⟨_, rfl⟩
        rw [hB]
        omega
      rw [hidx, unswizzleX_hit src rb hrb rb s yw dst i jj w hi
        (le_refl rb) hjj hw]
      congr 1
      omega
    · obtain ⟨q', rfl⟩ : ∃ q', q = q' + 1 := ⟨q - 1, by omega⟩
      have hidx : (yw + 32 * rb * (q' + 1)) + 4 * i + (jj * (4 * rb) + w)
          = ((yw + 32 * rb) + 32 * rb * q') + 4 * i + (jj * (4 * rb) + w) := by
        have hm : 32 * rb * (q' + 1) = 32 * rb * q' + 32 * rb := by ring
        obtain ⟨A, hA⟩ : ∃ A, 32 * rb * q' = A := ⟨_, rfl⟩
        obtain ⟨B, hB⟩ : ∃ B, jj * (4 * rb) = B := ⟨_, rfl⟩
        rw [hm, hA, hB]
        omega
      rw [hidx, ih (s + 32 * rb) (yw + 32 * rb)
        (unswizzleX src (4 * (rb - 1)) s (4 * yw) dst rb) q' i jj w
        (by omega) hi hjj hw]
      congr 1
      have hm : 32 * rb * (q' + 1) = 32 * rb * q' + 32 * rb := by ring
      obtain ⟨A, hA⟩ : ∃ A, 32 * rb * q' = A := ⟨_, rfl⟩
      rw [hm, hA]
      omega

lemma unswizzle_swizzled (t : PSPTextureData) (dst : Nat → Nat)
    (h : t.swizzled = true) : (TextureUnswizzle t dst).swizzled = false := by
  unfold TextureUnswizzle
  rw [if_neg (by simp [h])]

lemma unswizzle_dataW (t : PSPTextureData) (dst : Nat → Nat) (rb hb : Nat)
    (hrb : 0 < rb) (hbw : bytewidthOf t = 16 * rb)
    (hsz : t.size = bytewidthOf t * (8 * hb)) (hsw : t.swizzled = true)
    (q i jj w : Nat) (hq : q < hb) (hi : i < rb) (hjj : jj < 8) (hw : w < 4) :
    (TextureUnswizzle t dst).dataW
      ((0 + 32 * rb * q) + 4 * i + (jj * (4 * rb) + w))
      = t.dataW (0 + 32 * rb * q + (32 * i + (4 * jj + w))) := by
  have hwb : bytewidthOf t / 16 = rb := by rw [hbw]; omega
  have hh : t.size / bytewidthOf t = 8 * hb := by
    rw [hsz, hbw]
    exact Nat.mul_div_cancel_left _ (by omega)
  have hhb : t.size / bytewidthOf t / 8 = hb := by rw [hh]; omega
  have hdp : (bytewidthOf t - 16) / 4 = 4 * (rb - 1) := by rw [hbw]; omega
  have hdr : bytewidthOf t * 8 = 128 * rb := by rw [hbw]; ring
  unfold TextureUnswizzle
  rw [if_neg (by simp [hsw])]
  show unswizzleY t.dataW (bytewidthOf t / 16) ((bytewidthOf t - 16) / 4)
    (bytewidthOf t * 8) 0 0 dst (t.size / bytewidthOf t / 8)
    ((0 + 32 * rb * q) + 4 * i + (jj * (4 * rb) + w))
    = t.dataW (0 + 32 * rb * q + (32 * i + (4 * jj + w)))
  rw [hwb, hhb, hdp, hdr]
  show unswizzleY t.dataW rb (4 * (rb - 1)) (128 * rb) 0 (4 * 0) dst hb
    ((0 + 32 * rb * q) + 4 * i + (jj * (4 * rb) + w))
    = t.dataW (0 + 32 * rb * q + (32 * i + (4 * jj + w)))
  exact unswizzleY_hit t.dataW rb hrb hb 0 0 dst q i jj w hq hi hjj hw

/-- C6 — layout codec round trip: for a linear (unswizzled) texture whose
byte width is a positive multiple of the 16-byte block width and whose
height is a multiple of the 8-row band height (the backend's tiling
granularity), TextureSwizzle followed by TextureUnswizzle leaves the
texture back in the linear layout and reproduces every word of the
original buffer. -/
theorem codec_round_trip (t : PSPTextureData) (dst1 dst2 : Nat → Nat)
    (rb hb : Nat) (hrb : 0 < rb) (hbw : bytewidthOf t = 16 * rb)
    (hsz : t.size = bytewidthOf t * (8 * hb)) (hsw : t.swizzled = false) :
    (TextureUnswizzle (TextureSwizzle t dst1) dst2).swizzled = false ∧
    ∀ a, a < t.size / 4 →
      (TextureUnswizzle (TextureSwizzle t dst1) dst2).dataW a = t.dataW a := by
  have hfields := swizzle_fields t dst1
  have ht1sw : (TextureSwizzle t dst1).swizzled = true :=
    swizzle_swizzled t dst1 hsw
  have hbw1 : bytewidthOf (TextureSwizzle t dst1) = 16 * rb := by
    unfold bytewidthOf
    rw [hfields.2.1, hfields.2.2]
    exact hbw
  have hsz1 : (TextureSwizzle t dst1).size
      = bytewidthOf (TextureSwizzle t dst1) * (8 * hb) := by
    rw [hfields.1, hbw1, ← hbw]
    exact hsz
  constructor
  · exact unswizzle_swizzled (TextureSwizzle t dst1) dst2 ht1sw
  · intro a ha
    obtain ⟨R, hR⟩ : ∃ R, rb * hb = R := ⟨_, rfl⟩
    have hsz' : t.size = 128 * R := by rw [hsz, hbw, ← hR]; ring
    have h4 : t.size / 4 = 32 * R := by rw [hsz']; omega
    rw [h4] at ha
    obtain ⟨w, i, J, hw, hi, hJ, hdec⟩ :
        ∃ w i J, w < 4 ∧ i < rb ∧ J < 8 * hb ∧ a = 4 * (rb * J + i) + w := by
      refine ⟨a % 4, a / 4 % rb, a / 4 / rb, Nat.mod_lt _ (by omega),
        Nat.mod_lt _ hrb, ?_, ?_⟩
      · rw [Nat.div_lt_iff_lt_mul hrb]
        obtain ⟨S, hS⟩ : ∃ S, 8 * hb * rb = S := ⟨_, rfl⟩
        have h8 : S = 8 * R := by rw [← hS, ← hR]; ring
        rw [hS]
        omega
      · have h1 : rb * (a / 4 / rb) + a / 4 % rb = a / 4 :=
          Nat.div_add_mod (a / 4) rb
        have h2 : 4 * (a / 4) + a % 4 = a := Nat.div_add_mod a 4
        obtain ⟨P, hP⟩ : ∃ P, rb * (a / 4 / rb) = P := ⟨_, rfl⟩
        rw [hP] at h1 ⊢
        omega
    obtain ⟨qq, jjj, hqq, hjjj, hJsplit⟩ :
        ∃ qq jjj, qq < hb ∧ jjj < 8 ∧ J = 8 * qq + jjj := by
      refine ⟨J / 8, J % 8, ?_, by omega, by omega⟩
      omega
    have hpos : a = (0 + 32 * rb * qq) + 4 * i + (jjj * (4 * rb) + w) := by
      rw [hdec, hJsplit]
      ring
    have hsrc1 : 0 + 32 * rb * qq + (32 * i + (4 * jjj + w))
        = posW rb J i w := by
      rw [hJsplit]
      simp only [posW]
      have hdiv : (8 * qq + jjj) / 8 = qq := by omega
      have hmod : (8 * qq + jjj) % 8 = jjj := by omega
      rw [hdiv, hmod]
      ring
    have hsrc2 : 4 * (rb * J) + (4 * i + w) = a := by
      rw [hdec]
      ring
    calc (TextureUnswizzle (TextureSwizzle t dst1) dst2).dataW a
        = (TextureUnswizzle (TextureSwizzle t dst1) dst2).dataW
            ((0 + 32 * rb * qq) + 4 * i + (jjj * (4 * rb) + w)) := by
              rw [← hpos]
      _ = (TextureSwizzle t dst1).dataW
            (0 + 32 * rb * qq + (32 * i + (4 * jjj + w))) :=
          unswizzle_dataW (TextureSwizzle t dst1) dst2 rb hb hrb hbw1 hsz1
            ht1sw qq i jjj w hqq hi hjjj hw
      _ = (TextureSwizzle t dst1).dataW (posW rb J i w) := by rw [hsrc1]
      _ = t.dataW (4 * (rb * J) + (4 * i + w)) :=
          swizzle_dataW t dst1 rb hb hrb hbw hsz hsw J i w hJ hi hw
      _ = t.dataW a := by rw [hsrc2]

theorem codec_round_trip_witness :
    let t0 : PSPTextureData :=
      { dataW := fun a => a + 7, size := 128, textureWidth := 16, bits := 8,
        swizzled := false }
    0 < 1 ∧ bytewidthOf t0 = 16 * 1 ∧ t0.size = bytewidthOf t0 * (8 * 1) ∧
    t0.swizzled = false ∧
    (TextureUnswizzle (TextureSwizzle t0 (fun _ => 0)) (fun _ => 0)).swizzled
      = false ∧
    13 < t0.size / 4 ∧
    (TextureUnswizzle (TextureSwizzle t0 (fun _ => 0)) (fun _ => 0)).dataW 13
      = t0.dataW 13 := by
  intro t0
  refine ⟨by decide, by decide, by decide, rfl, ?_, by decide, ?_⟩
  · exact (codec_round_trip t0 (fun _ => 0) (fun _ => 0) 1 1 (by decide)
      (by decide) (by decide) rfl).1
  · exact (codec_round_trip t0 (fun _ => 0) (fun _ => 0) 1 1 (by decide)
      (by decide) (by decide) rfl).2 13 (by decide)

end Codec
